import Mathlib
/-!
Shallow embedding of the word-to-pdf MCP tool, file src/tools/convert.py.

The Python code is effectful: it reads environment variables, creates and
removes files, performs HTTP requests and invokes external converters
(pypandoc / docx2pdf).  We model the effects explicitly:

* the filesystem is an association list from absolute path to byte list
  (bytes are Nat, the embedding never needs mod-256 arithmetic);
* environment variables are an association list of strings;
* HTTP responses and converter outcomes are supplied by an oracle record,
  so theorems quantify over every possible behaviour of the outside world;
* tempfile.mkstemp is modelled by a counter producing fresh names of shape
  /tmp/tmp<n>.docx;
* Python exceptions are modelled by Except String carrying str(e);
* ghost instrumentation (removal log, fetch log, write log, the final
  values of the input_path / cleanup_tmp locals) records events that the
  specification talks about without changing control flow.
-/
/-- Truthiness of an optional string argument, as Python evaluates it:
None and the empty string are falsy. -/
def pyTruthy : Option String → Bool
  | none => false
  | some s => !(s == "")
/-- Lookup of an environment variable (os.environ.get). -/
def envGet : List (String × String) → String → Option String
  | [], _ => none
  | (k, v) :: rest, key => if k = key then some v else envGet rest key
/-- ASCII lower-casing of a single character (str.lower on the relevant inputs). -/
def myLower (c : Char) : Char :=
  if 'A' ≤ c ∧ c ≤ 'Z' then Char.ofNat (c.toNat + 32) else c
/-- ASCII lower-casing of a string. -/
def strLower (s : String) : String := String.mk (s.data.map myLower)
/-- Decimal digits of a Nat, most significant first; fuel-based so the kernel
can evaluate it. -/
def natDigitsAux : Nat → Nat → List Char
  | 0, _ => []
  | fuel + 1, n =>
    if n < 10 then [Char.ofNat (48 + n)]
    else natDigitsAux fuel (n / 10) ++ [Char.ofNat (48 + n % 10)]
/-- Decimal representation of a Nat. -/
def natRepr (n : Nat) : String := String.mk (natDigitsAux (n + 1) n)
/-- Name of the n-th temporary file handed out by tempfile.mkstemp in our
deterministic model of the temp-file allocator. -/
def tmpName (n : Nat) : String := "/tmp/tmp" ++ natRepr n ++ ".docx"
/-- Split a character list at every occurrence of a separator. -/
def splitOnChar (sep : Char) : List Char → List (List Char)
  | [] => [[]]
  | c :: rest =>
    let r := splitOnChar sep rest
    if c = sep then [] :: r
    else
      match r with
      | [] => [[c]]
      | g :: gs => (c :: g) :: gs
/-- os.path.basename: the part of the path after the last slash. -/
def basename (s : String) : String :=
  String.mk ((splitOnChar '/' s.data).getLastD [])
/-- Does the string start with a slash (absolute POSIX path)? -/
def startsWithSlash (s : String) : Bool :=
  match s.data with
  | '/' :: _ => true
  | _ => false
/-- os.path.join for the shapes the tool uses (two components, POSIX). -/
def pjoin (a b : String) : String :=
  if startsWithSlash b then b
  else if a = "" then b
  else
    match a.data.getLast? with
    | some '/' => a ++ b
    | _ => a ++ "/" ++ b
/-- os.path.abspath, relative paths resolved against the process cwd.
Path normalisation (collapsing dots) is not modelled; the tool never
builds paths that need it. -/
def abspath (cwd p : String) : String :=
  if startsWithSlash p then p else pjoin cwd p
/-- Index of the last occurrence of a character. -/
def lastIdxOfAux (c : Char) : List Char → Nat → Option Nat
  | [], _ => none
  | x :: rest, i =>
    match lastIdxOfAux c rest (i + 1) with
    | some j => some j
    | none => if x = c then some i else none
/-- Index of the last occurrence of a character in a string. -/
def lastIdxOf (c : Char) (s : String) : Option Nat := lastIdxOfAux c s.data 0
/-- os.path.splitext(...)[0]: drop the extension of the final path
component; a dot-only prefix of the component is not an extension. -/
def splitRoot (s : String) : String :=
  let cs := s.data
  match lastIdxOf '.' s with
  | none => s
  | some d =>
    let start :=
      match lastIdxOf '/' s with
      | none => some 0
      | some sp => if sp < d then some (sp + 1) else none
    match start with
    | none => s
    | some st =>
      if ((cs.drop st).take (d - st)).all (fun c => c = '.') then s
      else String.mk (cs.take d)
/-- str.rstrip applied to the slash character (base_url.rstrip of slash). -/
def rstripSlash (s : String) : String :=
  String.mk (s.data.reverse.dropWhile (fun c => c = '/')).reverse
/-- Characters allowed in a URL scheme after the first (urllib scheme_chars). -/
def isSchemeChar (c : Char) : Bool :=
  c.isAlphanum || c == '+' || c == '-' || c == '.'
/-- The characters before the first colon, or none when there is no colon. -/
def takeUntilColon : List Char → Option (List Char)
  | [] => none
  | c :: rest =>
    if c = ':' then some []
    else (takeUntilColon rest).map (fun g => c :: g)
/-- Model of _is_url: urlparse(s).scheme is http or https.  urlparse
recognises a scheme when a colon is preceded by a letter followed by
scheme characters; the scheme is lower-cased before comparison. -/
def _is_url (s : String) : Bool :=
  match takeUntilColon s.data with
  | none => false
  | some [] => false
  | some (c :: rest) =>
    c.isAlpha && rest.all isSchemeChar &&
      (let low := String.mk ((c :: rest).map myLower)
       low == "http" || low == "https")
/-- Is the first list a prefix of the second? -/
def isPrefixList : List Char → List Char → Bool
  | [], _ => true
  | _ :: _, [] => false
  | p :: ps, c :: cs => p == c && isPrefixList ps cs
/-- Left-to-right non-overlapping replacement, fuel-based. -/
def replaceAux (pat repl : List Char) : Nat → List Char → List Char
  | _, [] => []
  | 0, cs => cs
  | fuel + 1, c :: cs =>
    if isPrefixList pat (c :: cs) then
      repl ++ replaceAux pat repl fuel ((c :: cs).drop pat.length)
    else c :: replaceAux pat repl fuel cs
/-- Model of str.replace for a non-empty pattern. -/
def strReplace (s pat repl : String) : String :=
  if pat.data = [] then s
  else String.mk (replaceAux pat.data repl.data s.data.length s.data)
/-- Value of one base64 alphabet character (ranges given by ASCII code:
65-90 is A-Z, 97-122 is a-z, 48-57 is 0-9). -/
def b64val (c : Char) : Option Nat :=
  if 65 ≤ c.toNat ∧ c.toNat ≤ 90 then some (c.toNat - 65)
  else if 97 ≤ c.toNat ∧ c.toNat ≤ 122 then some (c.toNat - 97 + 26)
  else if 48 ≤ c.toNat ∧ c.toNat ≤ 57 then some (c.toNat - 48 + 52)
  else if c = '+' then some 62
  else if c = '/' then some 63
  else none
/-- Character for a 6-bit value, canonical base64 alphabet. -/
def b64chr (n : Nat) : Char :=
  if n < 26 then Char.ofNat (65 + n)
  else if n < 52 then Char.ofNat (97 + n - 26)
  else if n < 62 then Char.ofNat (48 + n - 52)
  else if n = 62 then '+'
  else '/'
/-- Strict base64 decoding: quads of alphabet characters, with an optional
correctly placed final padding of one or two equals signs.  This is the
success predicate of base64.b64decode(s, validate=True). -/
def b64decodeQuads : List Char → Option (List Nat)
  | [] => some []
  | c1 :: c2 :: c3 :: c4 :: rest =>
    match b64val c1, b64val c2 with
    | some v1, some v2 =>
      if c3 = '=' then
        if c4 = '=' ∧ rest = [] then some [v1 * 4 + v2 / 16] else none
      else
        match b64val c3 with
        | none => none
        | some v3 =>
          if c4 = '=' then
            if rest = [] then some [v1 * 4 + v2 / 16, v2 % 16 * 16 + v3 / 4]
            else none
          else
            match b64val c4 with
            | none => none
            | some v4 =>
              (b64decodeQuads rest).map
                (fun bs =>
                  (v1 * 4 + v2 / 16) :: (v2 % 16 * 16 + v3 / 4) ::
                    (v3 % 4 * 64 + v4) :: bs)
    | _, _ => none
  | _ => none
/-- Model of _looks_like_base64: base64.b64decode(s, validate=True)
succeeds. -/
def _looks_like_base64 (s : String) : Bool := (b64decodeQuads s.data).isSome
/-- Lenient base64 decoding (binascii.a2b_base64 without strict mode), the
behaviour of base64.b64decode without validate: characters outside the
alphabet are skipped, padding that completes a quad of two or three data
characters ends the decode, and a final incomplete quad is an error.
Arguments: input, quad position (0-3), pending bits, consecutive pads. -/
def a2bL : List Char → Nat → Nat → Nat → Option (List Nat)
  | [], qp, _, _ => if qp = 0 then some [] else none
  | c :: rest, qp, lc, pads =>
    if c = '=' then
      if 2 ≤ qp ∧ 4 ≤ qp + pads + 1 then some []
      else a2bL rest qp lc (pads + 1)
    else
      match b64val c with
      | none => a2bL rest qp lc pads
      | some v =>
        match qp with
        | 0 => a2bL rest 1 v 0
        | 1 => (a2bL rest 2 (v % 16) 0).map (fun bs => (lc * 4 + v / 16) :: bs)
        | 2 => (a2bL rest 3 (v % 4) 0).map (fun bs => (lc * 16 + v / 4) :: bs)
        | _ => (a2bL rest 0 0 0).map (fun bs => (lc * 64 + v) :: bs)
/-- Model of base64.b64decode(s): the string must be ASCII (str.encode
with the ascii codec), then lenient decoding applies. -/
def b64decodeLenient (s : String) : Option (List Nat) :=
  if s.data.all (fun c => c.toNat < 128) then a2bL s.data 0 0 0 else none
/-- Canonical base64 encoding of a byte list (base64.b64encode). -/
def b64encodeList : List Nat → List Char
  | [] => []
  | [b1] => [b64chr (b1 / 4), b64chr (b1 % 4 * 16), '=', '=']
  | [b1, b2] =>
    [b64chr (b1 / 4), b64chr (b1 % 4 * 16 + b2 / 16), b64chr (b2 % 16 * 4), '=']
  | b1 :: b2 :: b3 :: rest =>
    b64chr (b1 / 4) :: b64chr (b1 % 4 * 16 + b2 / 16) ::
      b64chr (b2 % 16 * 4 + b3 / 64) :: b64chr (b3 % 64) :: b64encodeList rest
/-- Canonical base64 encoding as a string. -/
def b64encode (bs : List Nat) : String := String.mk (b64encodeList bs)
/-- The filesystem: newest write first, lookup takes the first entry. -/
def fsRead : List (String × List Nat) → String → Option (List Nat)
  | [], _ => none
  | (q, bs) :: rest, p => if q = p then some bs else fsRead rest p
/-- os.path.exists restricted to files the model knows about. -/
def fsExists (fs : List (String × List Nat)) (p : String) : Bool :=
  (fsRead fs p).isSome
/-- os.remove: drop every entry for a path. -/
def fsRemove : List (String × List Nat) → String → List (String × List Nat)
  | [], _ => []
  | (q, bs) :: rest, p =>
    if q = p then fsRemove rest p else (q, bs) :: fsRemove rest p
/-- Outcome of one pypandoc.convert_file call: success with the produced
bytes, an OSError (executable not found), or any other exception. -/
inductive PdResult where
  | ok (out : List Nat)
  | oserror (msg : String)
  | err (msg : String)
deriving Repr, DecidableEq
/-- Oracle for the outside world: HTTP responses keyed by URL and optional
bearer token, the outcome of the first and second pypandoc call, of
pypandoc.download_pandoc, availability and outcome of docx2pdf, and an
optional failure of shutil.copy2 during publishing. -/
structure Oracles where
  http : String → Option String → Except String (List Nat)
  pandoc1 : PdResult
  pandocDownload : Except String Unit
  pandoc2 : PdResult
  docx2pdfAvailable : Bool
  docx2pdf : Except String (List Nat)
  copyFail : Option String
/-- Mutable world state threaded through the tool, plus ghost logs:
removals records every successful os.remove, fetched every HTTP request
with its bearer token, writeLog every file write. -/
structure World where
  fs : List (String × List Nat)
  tmpCounter : Nat
  removals : List String
  fetched : List (String × Option String)
  writeLog : List (String × List Nat)
  pandocCalls : Nat
  pandocDownloads : Nat
  docx2pdfCalls : Nat
deriving Repr, DecidableEq
/-- Write a file: update the filesystem and the ghost write log. -/
def wWrite (w : World) (p : String) (bs : List Nat) : World :=
  { w with fs := (p, bs) :: w.fs, writeLog := w.writeLog ++ [(p, bs)] }
/-- Model of _safe_remove: remove the file if the path is truthy and the
file exists, swallowing every error. -/
def _safe_remove (w : World) (p : Option String) : World :=
  match p with
  | none => w
  | some q =>
    if !(q == "") && fsExists w.fs q then
      { w with fs := fsRemove w.fs q, removals := w.removals ++ [q] }
    else w
/-- Arguments of the give_pdf tool. -/
structure Args where
  docx_source : Option String := none
  output_path : Option String := none
  file_base64 : Option String := none
  puch_file_data : Option String := none
  filename : Option String := none
deriving Repr, DecidableEq
/-- The dictionary returned by the tool.  url is present exactly on the
success shape, error exactly on the failure shape, pdf_base64 optionally
on success. -/
structure ToolResult where
  success : Bool
  url : Option String
  error : Option String
  pdf_base64 : Option String
deriving Repr, DecidableEq
/-- Result of one give_pdf invocation: the returned dictionary, the final
world, and the final values of the input_path and cleanup_tmp locals
(ghost data used to state the cleanup invariant). -/
structure RunOut where
  result : ToolResult
  world : World
  inputPath : Option String
  cleanupTmp : Bool
deriving Repr, DecidableEq
/-- files_dir as computed by _get_config: FILES_DIR when truthy, otherwise
/tmp/files on Vercel, otherwise the local directory files. -/
def cfgFilesDir (env : List (String × String)) : String :=
  if pyTruthy (envGet env "FILES_DIR") then (envGet env "FILES_DIR").getD ""
  else if envGet env "VERCEL" = some "1" then "/tmp/files"
  else "files"
/-- include_b64 as computed by _get_config. -/
def cfgIncludeB64 (env : List (String × String)) : Bool :=
  strLower ((envGet env "INCLUDE_BASE64").getD "false") == "true"
/-- Error message raised when an attachment ID arrives without a download
template. -/
def idTemplateMsg : String :=
  "Attachment provided as ID but PUCH_DOWNLOAD_URL_TEMPLATE is not set. Set it to a URL template like https://host/api/files/{id} or pass file_base64/docx_source."
/-- Error message returned when no input at all was provided. -/
def noInputMsg : String :=
  "Provide a docx_source (URL/path) or file_base64 (attachment), or configure PUCH_DOWNLOAD_URL_TEMPLATE for attachment IDs."
/-- Error message of the late delivery-configuration failure. -/
def gateMsg : String :=
  "Set BASE_URL or set INCLUDE_BASE64=true to receive the PDF as base64."
/-- Error message when the docx2pdf fallback is not importable. -/
def notInstalledMsg : String := "docx2pdf not installed; install and retry"
/-- Model of _download_docx: GET the URL, raise on HTTP failure, then write
the body into a fresh temp file and return its path. -/
def _download_docx (o : Oracles) (url : String) (w : World) :
    Except String String × World :=
  let w1 := { w with fetched := w.fetched ++ [(url, none)] }
  match o.http url none with
  | .error e => (.error e, w1)
  | .ok body =>
    let tmp := tmpName w1.tmpCounter
    (.ok tmp, wWrite { w1 with tmpCounter := w1.tmpCounter + 1 } tmp body)
/-- Model of _download_docx_by_id: require the PUCH_DOWNLOAD_URL_TEMPLATE
environment variable (truthy), substitute the id, GET with an optional
bearer token, write the body to a fresh temp file.  str.format with the id
keyword is modelled as replacement of the {id} placeholder. -/
def _download_docx_by_id (env : List (String × String)) (o : Oracles)
    (file_id : String) (w : World) : Except String String × World :=
  let template := envGet env "PUCH_DOWNLOAD_URL_TEMPLATE"
  if !(pyTruthy template) then (.error idTemplateMsg, w)
  else
    let url := strReplace (template.getD "") "{id}" file_id
    let token := envGet env "PUCH_API_TOKEN"
    let tok := if pyTruthy token then token else none
    let w1 := { w with fetched := w.fetched ++ [(url, tok)] }
    match o.http url tok with
    | .error e => (.error e, w1)
    | .ok body =>
      let tmp := tmpName w1.tmpCounter
      (.ok tmp, wWrite { w1 with tmpCounter := w1.tmpCounter + 1 } tmp body)
/-- Model of _write_temp_docx_from_base64: mkstemp first creates an empty
file, then the decoded payload is written; a decode failure raises after
the empty file already exists. -/
def _write_temp_docx_from_base64 (b64 : String) (w : World) :
    Except String String × World :=
  let tmp := tmpName w.tmpCounter
  let w1 := wWrite { w with tmpCounter := w.tmpCounter + 1 } tmp []
  match b64decodeLenient b64 with
  | none => (.error "Invalid base64-encoded string", w1)
  | some bs => (.ok tmp, wWrite w1 tmp bs)
/-- Model of _resolve_input_path: returns some (path, cleanup_tmp) or none
for the (None, None) outcome; raised exceptions propagate. -/
def _resolve_input_path (o : Oracles) (cwd : String)
    (docx_source attachment_b64 : Option String) (w : World) :
    Except String (Option (String × Bool)) × World :=
  if pyTruthy attachment_b64 then
    match _write_temp_docx_from_base64 (attachment_b64.getD "") w with
    | (.error e, w1) => (.error e, w1)
    | (.ok tmp, w1) => (.ok (some (tmp, true)), w1)
  else if pyTruthy docx_source then
    let ds := docx_source.getD ""
    if _is_url ds then
      match _download_docx o ds w with
      | (.error e, w1) => (.error e, w1)
      | (.ok tmp, w1) => (.ok (some (tmp, true)), w1)
    else
      let ap := abspath cwd ds
      if fsExists w.fs ap then (.ok (some (ap, false)), w) else (.ok none, w)
  else (.ok none, w)
/-- Model of _resolve_output_pdf_path. -/
def _resolve_output_pdf_path (cwd files_dir : String)
    (filename : Option String) (input_path : String)
    (output_path : Option String) : String :=
  if pyTruthy output_path then abspath cwd (output_path.getD "")
  else
    let base_name_no_ext :=
      if pyTruthy filename then splitRoot (filename.getD "")
      else
        let fallback_name :=
          if basename input_path = "" then "output.docx" else basename input_path
        splitRoot fallback_name
    abspath cwd (pjoin files_dir (base_name_no_ext ++ ".pdf"))
/-- Model of _convert_with_docx2pdf: import docx2pdf (may fail), then run
it, writing the output file on success. -/
def _convert_with_docx2pdf (o : Oracles) (output_pdf : String) (w : World) :
    Except String Unit × World :=
  if !o.docx2pdfAvailable then (.error notInstalledMsg, w)
  else
    let w1 := { w with docx2pdfCalls := w.docx2pdfCalls + 1 }
    match o.docx2pdf with
    | .ok bs => (.ok (), wWrite w1 output_pdf bs)
    | .error e => (.error e, w1)
/-- Model of _convert_docx_to_pdf: try pypandoc; on OSError download pandoc
(a download failure propagates) and retry once, any retry failure falls
back to docx2pdf; any other first-call exception falls back to docx2pdf
directly. -/
def _convert_docx_to_pdf (o : Oracles) (output_pdf : String) (w : World) :
    Except String Unit × World :=
  let w1 := { w with pandocCalls := w.pandocCalls + 1 }
  match o.pandoc1 with
  | .ok bs => (.ok (), wWrite w1 output_pdf bs)
  | .oserror _ =>
    let w2 := { w1 with pandocDownloads := w1.pandocDownloads + 1 }
    match o.pandocDownload with
    | .error e => (.error e, w2)
    | .ok _ =>
      let w3 := { w2 with pandocCalls := w2.pandocCalls + 1 }
      match o.pandoc2 with
      | .ok bs => (.ok (), wWrite w3 output_pdf bs)
      | .oserror _ => _convert_with_docx2pdf o output_pdf w3
      | .err _ => _convert_with_docx2pdf o output_pdf w3
  | .err _ => _convert_with_docx2pdf o output_pdf w1
/-- Model of _publish_and_url: copy the output into files_dir when it is
not already there, and build the public URL when BASE_URL is truthy. -/
def _publish_and_url (o : Oracles) (cwd files_dir output_pdf : String)
    (base_url : Option String) (w : World) :
    Except String (String × Option String) × World :=
  let filename := if basename output_pdf = "" then "output.pdf" else basename output_pdf
  let public_pdf_path := abspath cwd (pjoin files_dir filename)
  let file_url :=
    if pyTruthy base_url then
      some (rstripSlash (base_url.getD "") ++ "/files/" ++ filename)
    else none
  if abspath cwd output_pdf = public_pdf_path then
    (.ok (public_pdf_path, file_url), w)
  else
    match o.copyFail with
    | some e => (.error e, w)
    | none =>
      match fsRead w.fs output_pdf with
      | none => (.error ("No such file or directory: " ++ output_pdf), w)
      | some bs => (.ok (public_pdf_path, file_url), wWrite w public_pdf_path bs)
/-- Model of _read_pdf_base64. -/
def _read_pdf_base64 (fs : List (String × List Nat)) (p : String) :
    Except String String :=
  match fsRead fs p with
  | none => .error ("No such file or directory: " ++ p)
  | some bs => .ok (b64encode bs)
/-- The attachment_b64 expression of give_pdf: file_base64 when truthy,
otherwise puch_file_data when truthy and base64-decodable, otherwise
absent. -/
def computeAttachment (file_base64 puch_file_data : Option String) :
    Option String :=
  if pyTruthy file_base64 then file_base64
  else if pyTruthy puch_file_data &&
      _looks_like_base64 (puch_file_data.getD "") then puch_file_data
  else none
/-- The outer except-handler of give_pdf: run _safe_remove when cleanup_tmp
is set, then return the uniform failure dictionary. -/
def crash (msg : String) (ip : Option String) (ct : Bool) (w : World) : RunOut :=
  let w1 := if ct then _safe_remove w ip else w
  ⟨⟨false, none, some msg, none⟩, w1, ip, ct⟩
/-- The tail of give_pdf once an input path is resolved: compute the output
path, convert, publish, apply the delivery gate, optionally read the PDF
back as base64, clean up the temporary input and return. -/
def giveAfterResolve (o : Oracles) (cwd files_dir : String)
    (base_url : Option String) (include_b64 : Bool)
    (filename output_path : Option String) (ip : String) (ct : Bool)
    (w : World) : RunOut :=
  let output_pdf := _resolve_output_pdf_path cwd files_dir filename ip output_path
  match _convert_docx_to_pdf o output_pdf w with
  | (.error e, w1) => crash e (some ip) ct w1
  | (.ok _, w1) =>
    match _publish_and_url o cwd files_dir output_pdf base_url w1 with
    | (.error e, w2) => crash e (some ip) ct w2
    | (.ok (public_pdf_path, file_url), w2) =>
      if file_url.isNone && !include_b64 then
        let w3 := if ct then _safe_remove w2 (some ip) else w2
        ⟨⟨false, none, some gateMsg, none⟩, w3, some ip, ct⟩
      else
        match (if include_b64 then (_read_pdf_base64 w2.fs public_pdf_path).map some
               else .ok none) with
        | .error e => crash e (some ip) ct w2
        | .ok pdf_b64 =>
          let w3 := if ct then _safe_remove w2 (some ip) else w2
          ⟨⟨true, some (file_url.getD ""), none, pdf_b64⟩, w3, some ip, ct⟩
/-- Model of the give_pdf tool body, including its outermost exception
handler: every failure is returned as a success-false dictionary. -/
def give_pdf (env : List (String × String)) (o : Oracles) (cwd : String)
    (a : Args) (w0 : World) : RunOut :=
  let files_dir := cfgFilesDir env
  let base_url := envGet env "BASE_URL"
  let include_b64 := cfgIncludeB64 env
  let attachment := computeAttachment a.file_base64 a.puch_file_data
  if pyTruthy a.puch_file_data && attachment.isNone then
    match _download_docx_by_id env o (a.puch_file_data.getD "") w0 with
    | (.error e, w1) => ⟨⟨false, none, some e, none⟩, w1, none, false⟩
    | (.ok tmp, w1) =>
      giveAfterResolve o cwd files_dir base_url include_b64 a.filename
        a.output_path tmp true w1
  else
    match _resolve_input_path o cwd a.docx_source attachment w0 with
    | (.error e, w1) => crash e none false w1
    | (.ok none, w1) =>
      if pyTruthy a.docx_source then
        ⟨⟨false, none, some ("File not found: " ++ a.docx_source.getD ""), none⟩,
          w1, none, false⟩
      else ⟨⟨false, none, some noInputMsg, none⟩, w1, none, false⟩
    | (.ok (some (ip, ct)), w1) =>
      giveAfterResolve o cwd files_dir base_url include_b64 a.filename
        a.output_path ip ct w1

/-- Common frame of every internal stage: the removal log is untouched and
existing files keep existing (stages only create files). -/
def StageFrame (w w2 : World) : Prop :=
  w2.removals = w.removals ∧ ∀ q, fsExists w.fs q = true → fsExists w2.fs q = true
def oraclePrimaryDown : Oracles :=
  ⟨fun _ _ => .error "conn", .oserror "pandoc not found", .ok (), .err "no latex",
    false, .error "no word", none⟩
def emptyWorld : World := ⟨[], 0, [], [], [], 0, 0, 0⟩
def oracleNull : Oracles :=
  ⟨fun _ _ => .error "conn", .err "x", .error "x", .err "x", false, .error "x", none⟩
/-- The response contract: exactly one of the success shape (url present,
no error) and the failure shape (error present, no url, no payload). -/
def resultShapeOk (r : ToolResult) : Prop :=
  (r.success = true ∧ r.url.isSome = true ∧ r.error = none) ∨
  (r.success = false ∧ r.url = none ∧ r.error.isSome = true ∧ r.pdf_base64 = none)
/-- Output bytes of the docx2pdf fallback when it succeeds. -/
def fallbackOut (o : Oracles) : Option (List Nat) :=
  if o.docx2pdfAvailable then
    match o.docx2pdf with
    | .ok bs => some bs
    | .error _ => none
  else none
/-- The bytes the converter chain writes when some pipeline succeeds, for
any of the success modes (primary, repaired retry, fallback). -/
def oracleConvOut (o : Oracles) : Option (List Nat) :=
  match o.pandoc1 with
  | .ok bs => some bs
  | .oserror _ =>
    match o.pandocDownload with
    | .error _ => none
    | .ok _ =>
      match o.pandoc2 with
      | .ok bs => some bs
      | .oserror _ => fallbackOut o
      | .err _ => fallbackOut o
  | .err _ => fallbackOut o
/-- The URL obtained by substituting the id into the download template. -/
def idUrl (env : List (String × String)) (s : String) : String :=
  strReplace ((envGet env "PUCH_DOWNLOAD_URL_TEMPLATE").getD "") "{id}" s
/-- The optional bearer token attached to id downloads. -/
def idTok (env : List (String × String)) : Option String :=
  if pyTruthy (envGet env "PUCH_API_TOKEN") then envGet env "PUCH_API_TOKEN"
  else none
def envHost : List (String × String) := [("BASE_URL", "https://host")]
def argsUrl : Args := { docx_source := some "https://example.com/a.docx" }
/-- Concrete oracle for the URL scenario: the example URL serves the given
body, pandoc succeeds with the given output. -/
def oracleC2 (body out : List Nat) : Oracles :=
  ⟨fun u _ => if u = "https://example.com/a.docx" then .ok body else .error "conn",
    .ok out, .error "x", .err "x", false, .error "x", none⟩
def argsPuch : Args := { puch_file_data := some "ZmlsZTEyMw==" }
def argsBoth : Args := { docx_source := some "/docs/a.docx", file_base64 := some "aGk=" }
def argsPuchId : Args := { puch_file_data := some "file-123" }
theorem b64val_ne_pad {c : Char} {v : Nat} (h : b64val c = some v) : ¬ c = '=' := by
  intro he
  subst he
  simp [b64val] at h
theorem b64val_ascii {c : Char} {v : Nat} (h : b64val c = some v) : c.toNat < 128 := by
  unfold b64val at h
  split at h
  · omega
  · split at h
    · omega
    · split at h
      · omega
      · split at h
        · rename_i hc
          subst hc
          decide
        · split at h
          · rename_i hc
            subst hc
            decide
          · simp at h
theorem quadsLenAux :
    ∀ (n : Nat) (cs : List Char), cs.length ≤ n → ∀ bs, b64decodeQuads cs = some bs →
      a2bL cs 0 0 0 = some bs ∧ cs.all (fun c => c.toNat < 128) = true := by
  intro n
  induction n with
  | zero =>
    intro cs hlen bs h
    have hnil : cs = [] := List.eq_nil_of_length_eq_zero (Nat.le_zero.mp hlen)
    subst hnil
    simp [b64decodeQuads] at h
    subst h
    exact ⟨rfl, rfl⟩
  | succ n ih =>
    intro cs hlen bs h
    match cs, hlen, h with
    | [], _, h =>
      simp [b64decodeQuads] at h
      subst h
      exact ⟨rfl, rfl⟩
    | [a], _, h => exact absurd h (by simp [show b64decodeQuads [a] = none from rfl])
    | [a, b], _, h => exact absurd h (by simp [show b64decodeQuads [a, b] = none from rfl])
    | [a, b, c], _, h => exact absurd h (by simp [show b64decodeQuads [a, b, c] = none from rfl])
    | c1 :: c2 :: c3 :: c4 :: rest, hlen, h =>
      rcases hv1 : b64val c1 with _ | v1
      · simp only [b64decodeQuads, hv1] at h
        exact absurd h (by simp)
      rcases hv2 : b64val c2 with _ | v2
      · simp only [b64decodeQuads, hv1, hv2] at h
        exact absurd h (by simp)
      have hc1 : ¬ c1 = '=' := b64val_ne_pad hv1
      have hc2 : ¬ c2 = '=' := b64val_ne_pad hv2
      simp only [b64decodeQuads, hv1, hv2] at h
      by_cases h3 : c3 = '='
      · rw [if_pos h3] at h
        split at h
        · rename_i hcr
          rcases hcr with ⟨h4, hrest⟩
          have hbs : [v1 * 4 + v2 / 16] = bs := Option.some_inj.mp h
          subst hbs
          subst h3
          subst h4
          subst hrest
          constructor
          · simp [a2bL, hc1, hc2, hv1, hv2]
          · simp [b64val_ascii hv1, b64val_ascii hv2]
        · exact absurd h (by simp)
      · rw [if_neg h3] at h
        rcases hv3 : b64val c3 with _ | v3
        · rw [hv3] at h
          exact absurd h (by simp)
        rw [hv3] at h
        simp only at h
        by_cases h4 : c4 = '='
        · rw [if_pos h4] at h
          split at h
          · rename_i hrest
            have hbs : [v1 * 4 + v2 / 16, v2 % 16 * 16 + v3 / 4] = bs := Option.some_inj.mp h
            subst hbs
            subst h4
            subst hrest
            constructor
            · simp [a2bL, hc1, hc2, h3, hv1, hv2, hv3]
            · simp [b64val_ascii hv1, b64val_ascii hv2, b64val_ascii hv3]
          · exact absurd h (by simp)
        · rw [if_neg h4] at h
          rcases hv4 : b64val c4 with _ | v4
          · rw [hv4] at h
            exact absurd h (by simp)
          rw [hv4] at h
          rcases hrest : b64decodeQuads rest with _ | bs2
          · rw [hrest] at h
            exact absurd h (by simp)
          rw [hrest] at h
          simp only [Option.map_some] at h
          have hlen2 : rest.length ≤ n := by
            simp at hlen
            omega
          obtain ⟨ha, hb⟩ := ih rest hlen2 bs2 hrest
          have hc3 : ¬ c3 = '=' := h3
          have hc4 : ¬ c4 = '=' := b64val_ne_pad hv4
          constructor
          · simp only [a2bL, if_neg hc1, hv1, if_neg hc2, hv2, if_neg hc3, hv3,
              if_neg hc4, hv4, ha, Option.map_some]
            exact h
          · simp [b64val_ascii hv1, b64val_ascii hv2, b64val_ascii hv3,
              b64val_ascii hv4]
            simpa using hb
/-- Strict base64 validity implies the lenient decoder agrees: what
b64decode(s, validate=True) accepts, b64decode(s) decodes identically. -/
theorem b64decodeLenient_of_quads (s : String) (bs : List Nat)
    (h : b64decodeQuads s.data = some bs) : b64decodeLenient s = some bs := by
  obtain ⟨ha, hb⟩ := quadsLenAux s.data.length s.data (Nat.le_refl _) bs h
  unfold b64decodeLenient
  rw [if_pos hb]
  exact ha
/-! ### Frame lemmas: how each stage evolves the world -/
/-- Reading right after writing the same path. -/
theorem fsRead_cons (p q : String) (bs : List Nat) (fs : List (String × List Nat)) :
    fsRead ((p, bs) :: fs) q = if p = q then some bs else fsRead fs q := rfl
/-- os.remove really removes: the path no longer exists. -/
theorem fsRead_fsRemove_self (fs : List (String × List Nat)) (p : String) :
    fsRead (fsRemove fs p) p = none := by
  induction fs with
  | nil => rfl
  | cons e rest ih =>
    rcases e with ⟨q, bs⟩
    unfold fsRemove
    by_cases h : q = p
    · rw [if_pos h]
      exact ih
    · rw [if_neg h]
      rw [fsRead_cons, if_neg h]
      exact ih
/-- A write preserves existence of every file. -/
theorem fsExists_wWrite (w : World) (p q : String) (bs : List Nat)
    (h : fsExists w.fs q = true) : fsExists (wWrite w p bs).fs q = true := by
  unfold fsExists at h ⊢
  unfold wWrite
  simp only
  rw [fsRead_cons]
  split
  · rfl
  · exact h
/-- wWrite leaves every non-filesystem field except writeLog unchanged. -/
theorem wWrite_fields (w : World) (p : String) (bs : List Nat) :
    (wWrite w p bs).removals = w.removals ∧ (wWrite w p bs).fetched = w.fetched ∧
      (wWrite w p bs).tmpCounter = w.tmpCounter := ⟨rfl, rfl, rfl⟩
/-- StageFrame is reflexive. -/
theorem stageFrame_refl (w : World) : StageFrame w w := ⟨rfl, fun _ h => h⟩
/-- StageFrame composes. -/
theorem stageFrame_trans {w1 w2 w3 : World} (a : StageFrame w1 w2)
    (b : StageFrame w2 w3) : StageFrame w1 w3 :=
  ⟨b.1.trans a.1, fun q h => b.2 q (a.2 q h)⟩
/-- A write, with or without field updates that keep fs, is a stage frame. -/
theorem stageFrame_wWrite (w : World) (p : String) (bs : List Nat) :
    StageFrame w (wWrite w p bs) :=
  ⟨rfl, fun q h => fsExists_wWrite w p q bs h⟩
/-- _download_docx preserves the stage frame. -/
theorem frame_download (o : Oracles) (url : String) (w : World) :
    StageFrame w (_download_docx o url w).2 := by
  unfold _download_docx
  rcases h : o.http url none with e | body
  · simp only [h]
    exact ⟨rfl, fun q hq => hq⟩
  · simp only [h]
    exact ⟨rfl, fun q hq => fsExists_wWrite _ _ _ _ hq⟩
/-- _download_docx_by_id preserves the stage frame. -/
theorem frame_download_by_id (env : List (String × String)) (o : Oracles)
    (i : String) (w : World) :
    StageFrame w (_download_docx_by_id env o i w).2 := by
  unfold _download_docx_by_id
  by_cases ht : pyTruthy (envGet env "PUCH_DOWNLOAD_URL_TEMPLATE")
  · simp only [ht]
    rcases h : o.http (strReplace ((envGet env "PUCH_DOWNLOAD_URL_TEMPLATE").getD "") "{id}" i)
        (if pyTruthy (envGet env "PUCH_API_TOKEN") then envGet env "PUCH_API_TOKEN" else none)
      with e | body
    · simp only [h]
      exact ⟨rfl, fun q hq => hq⟩
    · simp only [h]
      exact ⟨rfl, fun q hq => fsExists_wWrite _ _ _ _ hq⟩
  · simp only [ht]
    simp
    exact ⟨rfl, fun q hq => hq⟩
/-- _write_temp_docx_from_base64 preserves the stage frame. -/
theorem frame_write_temp (b64 : String) (w : World) :
    StageFrame w (_write_temp_docx_from_base64 b64 w).2 := by
  unfold _write_temp_docx_from_base64
  rcases h : b64decodeLenient b64 with _ | bs
  · simp only [h]
    exact ⟨rfl, fun q hq => fsExists_wWrite _ _ _ _ hq⟩
  · simp only [h]
    exact ⟨rfl, fun q hq => fsExists_wWrite _ _ _ _ (fsExists_wWrite _ _ _ _ hq)⟩
/-- _resolve_input_path preserves the stage frame. -/
theorem frame_resolve (o : Oracles) (cwd : String)
    (ds att : Option String) (w : World) :
    StageFrame w (_resolve_input_path o cwd ds att w).2 := by
  unfold _resolve_input_path
  dsimp only []
  split
  · rcases h : _write_temp_docx_from_base64 (att.getD "") w with ⟨r, w1⟩
    have hf := frame_write_temp (att.getD "") w
    rw [h] at hf
    cases r <;> simpa using hf
  · split
    · split
      · rcases h : _download_docx o (ds.getD "") w with ⟨r, w1⟩
        have hf := frame_download o (ds.getD "") w
        rw [h] at hf
        cases r <;> simpa using hf
      · split
        · exact stageFrame_refl w
        · exact stageFrame_refl w
    · exact stageFrame_refl w
/-- _convert_with_docx2pdf preserves the stage frame. -/
theorem frame_docx2pdf (o : Oracles) (p : String) (w : World) :
    StageFrame w (_convert_with_docx2pdf o p w).2 := by
  unfold _convert_with_docx2pdf
  dsimp only []
  repeat' first
    | exact stageFrame_refl w
    | exact ⟨rfl, fun q hq => fsExists_wWrite _ _ _ _ hq⟩
    | exact ⟨rfl, fun q hq => hq⟩
    | split
/-- _convert_with_docx2pdf does not fetch. -/
theorem fetched_docx2pdf (o : Oracles) (p : String) (w : World) :
    (_convert_with_docx2pdf o p w).2.fetched = w.fetched := by
  unfold _convert_with_docx2pdf
  dsimp only []
  repeat' first
    | rfl
    | split
/-- _convert_docx_to_pdf preserves the stage frame. -/
theorem frame_convert (o : Oracles) (p : String) (w : World) :
    StageFrame w (_convert_docx_to_pdf o p w).2 := by
  unfold _convert_docx_to_pdf
  dsimp only []
  repeat' first
    | exact frame_docx2pdf o p _
    | exact stageFrame_refl w
    | exact ⟨rfl, fun q hq => fsExists_wWrite _ _ _ _ hq⟩
    | exact ⟨rfl, fun q hq => hq⟩
    | split
/-- _convert_docx_to_pdf does not fetch. -/
theorem fetched_convert (o : Oracles) (p : String) (w : World) :
    (_convert_docx_to_pdf o p w).2.fetched = w.fetched := by
  unfold _convert_docx_to_pdf
  dsimp only []
  repeat' first
    | rfl
    | rw [fetched_docx2pdf]
    | split
/-- _publish_and_url preserves the stage frame. -/
theorem frame_publish (o : Oracles) (cwd fd op : String) (bu : Option String)
    (w : World) :
    StageFrame w (_publish_and_url o cwd fd op bu w).2 := by
  unfold _publish_and_url
  dsimp only []
  repeat' first
    | exact stageFrame_refl w
    | exact ⟨rfl, fun q hq => fsExists_wWrite _ _ _ _ hq⟩
    | exact ⟨rfl, fun q hq => hq⟩
    | split
/-- _publish_and_url does not fetch. -/
theorem fetched_publish (o : Oracles) (cwd fd op : String) (bu : Option String)
    (w : World) :
    (_publish_and_url o cwd fd op bu w).2.fetched = w.fetched := by
  unfold _publish_and_url
  dsimp only []
  repeat' first
    | rfl
    | split
/-- _safe_remove on a truthy, existing path really removes and logs. -/
theorem _safe_remove_true (w : World) (q : String) (hne : ¬ q = "")
    (hex : fsExists w.fs q = true) :
    _safe_remove w (some q) =
      { w with fs := fsRemove w.fs q, removals := w.removals ++ [q] } := by
  unfold _safe_remove
  dsimp only []
  have hcond : ((!(q == "")) && fsExists w.fs q) = true := by
    rw [hex]
    simp [hne]
  rw [if_pos hcond]
/-- The common exit of give_pdf once an input is resolved: conditional
cleanup of the temporary input.  Relative to a stage frame from the world
at resolution time, the removal log grows by exactly the input path when
cleanup_tmp is set, and is untouched otherwise. -/
theorem cleanup_exit (w0 w1 : World) (ip : String) (ct : Bool)
    (hf : StageFrame w0 w1)
    (hct : ct = true → ¬ ip = "" ∧ fsExists w0.fs ip = true) :
    (ct = true → (if ct then _safe_remove w1 (some ip) else w1).removals =
        w0.removals ++ [ip] ∧
      fsExists (if ct then _safe_remove w1 (some ip) else w1).fs ip = false) ∧
    (ct = false → (if ct then _safe_remove w1 (some ip) else w1).removals =
        w0.removals ∧
      (fsExists w0.fs ip = true →
        fsExists (if ct then _safe_remove w1 (some ip) else w1).fs ip = true)) ∧
    (if ct then _safe_remove w1 (some ip) else w1).fetched = w1.fetched := by
  cases ct with
  | false =>
    refine ⟨fun h => by simp at h, fun _ => ⟨hf.1, hf.2 ip⟩, ?_⟩
    simp
  | true =>
    obtain ⟨hne, hex0⟩ := hct rfl
    have hex1 : fsExists w1.fs ip = true := hf.2 ip hex0
    simp only [if_true]
    rw [_safe_remove_true w1 ip hne hex1]
    refine ⟨fun _ => ⟨?_, ?_⟩, fun h => by simp at h, rfl⟩
    · simp only []
      rw [hf.1]
    · unfold fsExists
      simp only []
      rw [fsRead_fsRemove_self]
      rfl
theorem gar_spec (o : Oracles) (cwd fd : String) (bu : Option String) (ib : Bool)
    (fn op : Option String) (ip : String) (ct : Bool) (w : World)
    (hct : ct = true → ¬ ip = "" ∧ fsExists w.fs ip = true) :
    (giveAfterResolve o cwd fd bu ib fn op ip ct w).inputPath = some ip ∧
    (giveAfterResolve o cwd fd bu ib fn op ip ct w).cleanupTmp = ct ∧
    (giveAfterResolve o cwd fd bu ib fn op ip ct w).world.fetched = w.fetched ∧
    (ct = true →
      (giveAfterResolve o cwd fd bu ib fn op ip ct w).world.removals =
        w.removals ++ [ip] ∧
      fsExists (giveAfterResolve o cwd fd bu ib fn op ip ct w).world.fs ip = false) ∧
    (ct = false →
      (giveAfterResolve o cwd fd bu ib fn op ip ct w).world.removals = w.removals ∧
      (fsExists w.fs ip = true →
        fsExists (giveAfterResolve o cwd fd bu ib fn op ip ct w).world.fs ip = true)) := by
  unfold giveAfterResolve
  dsimp only []
  generalize _resolve_output_pdf_path cwd fd fn ip op = OP
  rcases hc : _convert_docx_to_pdf o OP w with ⟨rc, w1⟩
  have hf1 : StageFrame w w1 := by
    have h := frame_convert o OP w
    rw [hc] at h
    exact h
  have hfe1 : w1.fetched = w.fetched := by
    have h := fetched_convert o OP w
    rw [hc] at h
    exact h
  cases rc with
  | error e =>
    dsimp only []
    unfold crash
    dsimp only []
    obtain ⟨ha, hb, hfet⟩ := cleanup_exit w w1 ip ct hf1 hct
    exact ⟨rfl, rfl, hfet.trans hfe1, ha, hb⟩
  | ok u =>
    dsimp only []
    rcases hp : _publish_and_url o cwd fd OP bu w1 with ⟨rp, w2⟩
    have hf2 : StageFrame w w2 := by
      have h := frame_publish o cwd fd OP bu w1
      rw [hp] at h
      exact stageFrame_trans hf1 h
    have hfe2 : w2.fetched = w.fetched := by
      have h := fetched_publish o cwd fd OP bu w1
      rw [hp] at h
      exact h.trans hfe1
    cases rp with
    | error e =>
      dsimp only []
      unfold crash
      dsimp only []
      obtain ⟨ha, hb, hfet⟩ := cleanup_exit w w2 ip ct hf2 hct
      exact ⟨rfl, rfl, hfet.trans hfe2, ha, hb⟩
    | ok pu =>
      dsimp only []
      rcases pu with ⟨public, fileurl⟩
      dsimp only []
      by_cases hg : (fileurl.isNone && !ib) = true
      · rw [if_pos hg]
        obtain ⟨ha, hb, hfet⟩ := cleanup_exit w w2 ip ct hf2 hct
        exact ⟨rfl, rfl, hfet.trans hfe2, ha, hb⟩
      · rw [if_neg hg]
        rcases hb2 : (if ib = true then Except.map some (_read_pdf_base64 w2.fs public)
            else Except.ok none) with e | pb
        · dsimp only []
          unfold crash
          dsimp only []
          obtain ⟨ha, hb, hfet⟩ := cleanup_exit w w2 ip ct hf2 hct
          exact ⟨rfl, rfl, hfet.trans hfe2, ha, hb⟩
        · dsimp only []
          obtain ⟨ha, hb, hfet⟩ := cleanup_exit w w2 ip ct hf2 hct
          exact ⟨rfl, rfl, hfet.trans hfe2, ha, hb⟩
/-- A temp-file name is never the empty (falsy) path. -/
theorem tmpName_ne_empty (n : Nat) : ¬ tmpName n = "" := by
  intro h
  have h2 : (tmpName n).data = [] := by rw [h]
  rw [tmpName] at h2
  have e1 : ∀ a b : String, (a ++ b).data = a.data ++ b.data := fun a b => rfl
  rw [e1] at h2
  have h3 := List.append_eq_nil.mp h2
  exact absurd h3.2 (by decide)
/-- Inversion of a successful _download_docx: the fresh temp name, the HTTP
body, and the exact world evolution. -/
theorem download_ok (o : Oracles) (url : String) (w : World) (tmp : String)
    (w1 : World) (h : _download_docx o url w = (.ok tmp, w1)) :
    tmp = tmpName w.tmpCounter ∧
    ∃ body, o.http url none = .ok body ∧
      w1 = wWrite { w with
        fetched := w.fetched ++ [(url, none)]
        tmpCounter := w.tmpCounter + 1 } tmp body := by
  unfold _download_docx at h
  dsimp only [] at h
  rcases hh : o.http url none with e | body <;> rw [hh] at h
  · exact absurd h (by simp)
  · have h1 := congrArg Prod.fst h
    have h2 := congrArg Prod.snd h
    simp only [] at h1 h2
    have htmp : tmp = tmpName w.tmpCounter := by
      have := Except.ok.inj h1.symm
      exact this
    subst htmp
    exact ⟨rfl, body, rfl, h2.symm⟩
/-- Inversion of a successful _write_temp_docx_from_base64. -/
theorem write_temp_ok (b64 : String) (w : World) (tmp : String) (w1 : World)
    (h : _write_temp_docx_from_base64 b64 w = (.ok tmp, w1)) :
    tmp = tmpName w.tmpCounter ∧
    ∃ bs, b64decodeLenient b64 = some bs ∧
      w1 = wWrite (wWrite { w with tmpCounter := w.tmpCounter + 1 } tmp []) tmp bs := by
  unfold _write_temp_docx_from_base64 at h
  dsimp only [] at h
  rcases hd : b64decodeLenient b64 with _ | bs <;> rw [hd] at h
  · exact absurd h (by simp)
  · have h1 := congrArg Prod.fst h
    have h2 := congrArg Prod.snd h
    simp only [] at h1 h2
    have htmp : tmp = tmpName w.tmpCounter := by
      have := Except.ok.inj h1.symm
      exact this
    subst htmp
    exact ⟨rfl, bs, rfl, h2.symm⟩
/-- _download_docx_by_id without a truthy template fails immediately with
the configuration message and leaves the world untouched. -/
theorem by_id_no_template (env : List (String × String)) (o : Oracles)
    (i : String) (w : World)
    (ht : pyTruthy (envGet env "PUCH_DOWNLOAD_URL_TEMPLATE") = false) :
    _download_docx_by_id env o i w = (.error idTemplateMsg, w) := by
  unfold _download_docx_by_id
  simp only [ht]
  rfl
/-- _download_docx_by_id with a truthy template always performs exactly one
HTTP GET of the substituted URL with the optional bearer token. -/
theorem by_id_fetch (env : List (String × String)) (o : Oracles)
    (i : String) (w : World)
    (ht : pyTruthy (envGet env "PUCH_DOWNLOAD_URL_TEMPLATE") = true) :
    (_download_docx_by_id env o i w).2.fetched = w.fetched ++
      [(strReplace ((envGet env "PUCH_DOWNLOAD_URL_TEMPLATE").getD "") "{id}" i,
        if pyTruthy (envGet env "PUCH_API_TOKEN") then envGet env "PUCH_API_TOKEN"
        else none)] := by
  unfold _download_docx_by_id
  simp only [ht, Bool.not_true, Bool.false_eq_true, if_false]
  split <;> rfl
/-- Inversion of a successful _download_docx_by_id: template truthy, fresh
temp name, HTTP body written. -/
theorem by_id_ok (env : List (String × String)) (o : Oracles) (i : String)
    (w : World) (tmp : String) (w1 : World)
    (h : _download_docx_by_id env o i w = (.ok tmp, w1)) :
    tmp = tmpName w.tmpCounter ∧ fsExists w1.fs tmp = true := by
  unfold _download_docx_by_id at h
  by_cases ht : pyTruthy (envGet env "PUCH_DOWNLOAD_URL_TEMPLATE") = true
  · simp only [ht, Bool.not_true, Bool.false_eq_true, if_false] at h
    rcases hh : o.http
        (strReplace ((envGet env "PUCH_DOWNLOAD_URL_TEMPLATE").getD "") "{id}" i)
        (if pyTruthy (envGet env "PUCH_API_TOKEN") then envGet env "PUCH_API_TOKEN"
         else none) with e | body <;> rw [hh] at h
    · exact absurd h (by simp)
    · have h1 := congrArg Prod.fst h
      have h2 := congrArg Prod.snd h
      simp only [] at h1 h2
      have htmp : tmp = tmpName w.tmpCounter := by
        have := Except.ok.inj h1.symm
        exact this
      subst htmp
      refine ⟨rfl, ?_⟩
      rw [← h2]
      unfold wWrite fsExists
      dsimp only []
      rw [fsRead_cons, if_pos rfl]
      rfl
  · rw [Bool.not_eq_true] at ht
    simp only [ht] at h
    exact absurd h (by simp)
/-- Full behaviour of the docx2pdf fallback: import failure yields the
not-installed error without an invocation; otherwise exactly one
invocation whose outcome is returned.  It never touches pandoc counters. -/
theorem docx2pdf_spec (o : Oracles) (p : String) (w : World) :
    (o.docx2pdfAvailable = false →
      (_convert_with_docx2pdf o p w).1 = .error notInstalledMsg ∧
      (_convert_with_docx2pdf o p w).2.docx2pdfCalls = w.docx2pdfCalls) ∧
    (o.docx2pdfAvailable = true →
      (_convert_with_docx2pdf o p w).2.docx2pdfCalls = w.docx2pdfCalls + 1 ∧
      (∀ bs, o.docx2pdf = .ok bs → (_convert_with_docx2pdf o p w).1 = .ok ()) ∧
      (∀ e, o.docx2pdf = .error e → (_convert_with_docx2pdf o p w).1 = .error e)) ∧
    (_convert_with_docx2pdf o p w).2.pandocCalls = w.pandocCalls ∧
    (_convert_with_docx2pdf o p w).2.pandocDownloads = w.pandocDownloads ∧
    (_convert_with_docx2pdf o p w).2.docx2pdfCalls ≤ w.docx2pdfCalls + 1 := by
  unfold _convert_with_docx2pdf
  rcases ha : o.docx2pdfAvailable <;> rcases hd : o.docx2pdf with e | bs <;>
    simp [ha, hd, wWrite]
/-- Claim C6: the retry-then-fallback chain of the converter, stated for every
oracle: a primary success is final with one pandoc call and no repair; an
OSError triggers exactly one pandoc download and exactly one retry (a
failing download propagates); a successful retry skips the fallback; a
failed retry or any other primary failure invokes docx2pdf, which fails
with the not-installed message when unavailable; in every case at most two
pandoc calls, one download, one fallback invocation happen. -/
theorem C6_converter_chain (o : Oracles) (p : String) (w : World) :
    (∀ bs, o.pandoc1 = .ok bs →
      (_convert_docx_to_pdf o p w).1 = .ok () ∧
      (_convert_docx_to_pdf o p w).2.pandocCalls = w.pandocCalls + 1 ∧
      (_convert_docx_to_pdf o p w).2.pandocDownloads = w.pandocDownloads ∧
      (_convert_docx_to_pdf o p w).2.docx2pdfCalls = w.docx2pdfCalls) ∧
    (∀ m, o.pandoc1 = .oserror m →
      (_convert_docx_to_pdf o p w).2.pandocDownloads = w.pandocDownloads + 1 ∧
      (∀ e, o.pandocDownload = .error e →
        (_convert_docx_to_pdf o p w).1 = .error e ∧
        (_convert_docx_to_pdf o p w).2.pandocCalls = w.pandocCalls + 1) ∧
      (o.pandocDownload = .ok () →
        (_convert_docx_to_pdf o p w).2.pandocCalls = w.pandocCalls + 2 ∧
        (∀ bs, o.pandoc2 = .ok bs →
          (_convert_docx_to_pdf o p w).1 = .ok () ∧
          (_convert_docx_to_pdf o p w).2.docx2pdfCalls = w.docx2pdfCalls) ∧
        ((∀ bs, ¬ o.pandoc2 = .ok bs) →
          (o.docx2pdfAvailable = false →
            (_convert_docx_to_pdf o p w).1 = .error notInstalledMsg ∧
            (_convert_docx_to_pdf o p w).2.docx2pdfCalls = w.docx2pdfCalls) ∧
          (o.docx2pdfAvailable = true →
            (_convert_docx_to_pdf o p w).2.docx2pdfCalls = w.docx2pdfCalls + 1)))) ∧
    (∀ m, o.pandoc1 = .err m →
      (_convert_docx_to_pdf o p w).2.pandocCalls = w.pandocCalls + 1 ∧
      (_convert_docx_to_pdf o p w).2.pandocDownloads = w.pandocDownloads ∧
      (o.docx2pdfAvailable = false →
        (_convert_docx_to_pdf o p w).1 = .error notInstalledMsg ∧
        (_convert_docx_to_pdf o p w).2.docx2pdfCalls = w.docx2pdfCalls) ∧
      (o.docx2pdfAvailable = true →
        (_convert_docx_to_pdf o p w).2.docx2pdfCalls = w.docx2pdfCalls + 1 ∧
        (∀ bs, o.docx2pdf = .ok bs → (_convert_docx_to_pdf o p w).1 = .ok ()) ∧
        (∀ e, o.docx2pdf = .error e →
          (_convert_docx_to_pdf o p w).1 = .error e))) ∧
    ((_convert_docx_to_pdf o p w).2.pandocCalls ≤ w.pandocCalls + 2 ∧
     (_convert_docx_to_pdf o p w).2.pandocDownloads ≤ w.pandocDownloads + 1 ∧
     (_convert_docx_to_pdf o p w).2.docx2pdfCalls ≤ w.docx2pdfCalls + 1) := by
  unfold _convert_docx_to_pdf _convert_with_docx2pdf
  rcases h1 : o.pandoc1 with bs1 | m1 | m1 <;>
    rcases hd : o.pandocDownload with e | u <;>
    rcases h2 : o.pandoc2 with bs2 | m2 | m2 <;>
    rcases ha : o.docx2pdfAvailable <;>
    rcases hdx : o.docx2pdf with e2 | bs3 <;>
    simp [h1, hd, h2, ha, hdx, wWrite]
/-- Witness for C6 at a concrete oracle: primary OSError, repair succeeds,
retry fails, fallback unavailable. -/
theorem C6_converter_chain_witness :
    (_convert_docx_to_pdf oraclePrimaryDown "/out.pdf" emptyWorld).1 =
      .error notInstalledMsg ∧
    (_convert_docx_to_pdf oraclePrimaryDown "/out.pdf" emptyWorld).2.pandocCalls = 2 ∧
    (_convert_docx_to_pdf oraclePrimaryDown "/out.pdf" emptyWorld).2.pandocDownloads = 1 := by
  have h := C6_converter_chain oraclePrimaryDown "/out.pdf" emptyWorld
  obtain ⟨-, hos, -, -⟩ := h
  obtain ⟨hdl, -, hok⟩ := hos "pandoc not found" rfl
  obtain ⟨hcalls, -, hfb⟩ := hok rfl
  obtain ⟨hunav, -⟩ := hfb (fun bs hx => by simp [oraclePrimaryDown] at hx)
  exact ⟨(hunav rfl).1, hcalls, hdl⟩
/-- pyTruthy of an absent value. -/
theorem pyTruthy_none : pyTruthy none = false := rfl
/-- A field that is absent or the empty string is falsy. -/
theorem pyTruthy_eq_false (x : Option String) (h : x = none ∨ x = some "") :
    pyTruthy x = false := by
  rcases h with h | h <;> subst h <;> decide
/-- Claim C9 counterexample: the payload "ab==" is accepted by the strict base64
validator, resolves to a temp file with byte 105, but re-encoding 105
yields "aQ==", not "ab==": re-encoding does not recover the payload. -/
theorem C9_counterexample :
    _looks_like_base64 "ab==" = true ∧
    (_resolve_input_path oracleNull "/srv" none (some "ab==") emptyWorld).1 =
      .ok (some ("/tmp/tmp0.docx", true)) ∧
    fsRead (_resolve_input_path oracleNull "/srv" none (some "ab==") emptyWorld).2.fs
      "/tmp/tmp0.docx" = some [105] ∧
    ¬ b64encode [105] = "ab==" := by
  refine ⟨by decide, by rfl, by decide, by decide⟩
/-- Claim C9 amended: for every nonempty strictly valid base64 payload P,
resolution writes a fresh temporary file whose bytes are exactly the
base64 decoding of P, with the temporary flag set. -/
theorem C9_payload_roundtrip (P : String) (bs : List Nat) (o : Oracles)
    (cwd : String) (ds : Option String) (w : World)
    (hP : b64decodeQuads P.data = some bs) (hne : ¬ P = "") :
    (_resolve_input_path o cwd ds (some P) w).1 =
      .ok (some (tmpName w.tmpCounter, true)) ∧
    fsRead (_resolve_input_path o cwd ds (some P) w).2.fs
      (tmpName w.tmpCounter) = some bs := by
  have ht : pyTruthy (some P) = true := by
    unfold pyTruthy
    simp [hne]
  have hl : b64decodeLenient P = some bs := b64decodeLenient_of_quads P bs hP
  unfold _resolve_input_path _write_temp_docx_from_base64
  simp only [ht, Option.getD_some, hl, if_true]
  constructor
  · trivial
  · unfold wWrite
    dsimp only []
    rw [fsRead_cons, if_pos rfl]
/-- Witness for the amended C9 at P = "aGk=". -/
theorem C9_payload_roundtrip_witness :
    b64decodeQuads "aGk=".data = some [104, 105] ∧ ¬ "aGk=" = "" ∧
    (_resolve_input_path oracleNull "/srv" none (some "aGk=") emptyWorld).1 =
      .ok (some (tmpName 0, true)) ∧
    fsRead (_resolve_input_path oracleNull "/srv" none (some "aGk=") emptyWorld).2.fs
      (tmpName 0) = some [104, 105] := by
  refine ⟨by decide, by decide, ?_⟩
  exact C9_payload_roundtrip "aGk=" [104, 105] oracleNull "/srv" none emptyWorld
    (by decide) (by decide)
/-- Claim C10: when docx_source, file_base64 and puch_file_data are each absent
or empty, give_pdf returns the no-input error and the world is unchanged:
the empty string is treated exactly like an absent field. -/
theorem C10_empty_fields_as_absent (env : List (String × String)) (o : Oracles)
    (cwd : String) (a : Args) (w0 : World)
    (hds : a.docx_source = none ∨ a.docx_source = some "")
    (hfb : a.file_base64 = none ∨ a.file_base64 = some "")
    (hpu : a.puch_file_data = none ∨ a.puch_file_data = some "") :
    give_pdf env o cwd a w0 =
      ⟨⟨false, none, some noInputMsg, none⟩, w0, none, false⟩ := by
  have h1 := pyTruthy_eq_false _ hds
  have h2 := pyTruthy_eq_false _ hfb
  have h3 := pyTruthy_eq_false _ hpu
  unfold give_pdf computeAttachment _resolve_input_path
  simp [h1, h2, h3, pyTruthy_none]
/-- Witness for C10: all three source fields empty strings. -/
theorem C10_empty_fields_witness :
    give_pdf [] oracleNull "/srv"
      { docx_source := some "", file_base64 := some "", puch_file_data := some "" }
      emptyWorld =
      ⟨⟨false, none, some noInputMsg, none⟩, emptyWorld, none, false⟩ :=
  C10_empty_fields_as_absent [] oracleNull "/srv" _ emptyWorld
    (Or.inr rfl) (Or.inr rfl) (Or.inr rfl)
/-- Every giveAfterResolve outcome satisfies the response contract. -/
theorem gar_shape (o : Oracles) (cwd fd : String) (bu : Option String)
    (ib : Bool) (fn op : Option String) (ip : String) (ct : Bool) (w : World) :
    resultShapeOk (giveAfterResolve o cwd fd bu ib fn op ip ct w).result := by
  unfold giveAfterResolve crash
  dsimp only []
  repeat' first
    | exact Or.inl ⟨rfl, rfl, rfl⟩
    | exact Or.inr ⟨rfl, rfl, rfl, rfl⟩
    | split
/-- Claim C8: the uniform error boundary.  The tool is a total function into
response dictionaries (exceptions are caught), and every response is
exactly one of success-with-url or failure-with-error. -/
theorem C8_uniform_error_boundary (env : List (String × String)) (o : Oracles)
    (cwd : String) (a : Args) (w0 : World) :
    resultShapeOk (give_pdf env o cwd a w0).result := by
  unfold give_pdf crash
  dsimp only []
  repeat' first
    | exact gar_shape o cwd (cfgFilesDir env) (envGet env "BASE_URL")
        (cfgIncludeB64 env) a.filename a.output_path _ _ _
    | exact Or.inl ⟨rfl, rfl, rfl⟩
    | exact Or.inr ⟨rfl, rfl, rfl, rfl⟩
    | split
/-- Inversion of a successful input resolution: a temporary result is a
fresh nonempty temp path that exists afterwards; a non-temporary result is
an existing local path. -/
theorem resolve_ok_some (o : Oracles) (cwd : String) (ds att : Option String)
    (w : World) (ip : String) (ct : Bool) (w1 : World)
    (h : _resolve_input_path o cwd ds att w = (.ok (some (ip, ct)), w1)) :
    (ct = true → ¬ ip = "" ∧ fsExists w1.fs ip = true) ∧
    fsExists w1.fs ip = true := by
  unfold _resolve_input_path at h
  by_cases ha : pyTruthy att = true
  · simp only [ha, if_true] at h
    rcases hw : _write_temp_docx_from_base64 (att.getD "") w with ⟨r2, w2⟩
    rw [hw] at h
    cases r2 with
    | error e => exact absurd h (by simp)
    | ok tmp =>
      simp only [] at h
      have h1 := congrArg Prod.fst h
      have h2 := congrArg Prod.snd h
      simp only [] at h1 h2
      have h3 := Except.ok.inj h1
      have hip : tmp = ip := (congrArg Prod.fst (Option.some.inj h3))
      have hct : ct = true := (congrArg Prod.snd (Option.some.inj h3)).symm
      obtain ⟨htmp, bs, hlen, hw2⟩ := write_temp_ok _ _ _ _ hw
      subst hip
      subst h2
      have hex : fsExists w2.fs tmp = true := by
        rw [hw2]
        unfold wWrite fsExists
        dsimp only []
        rw [fsRead_cons, if_pos rfl]
        rfl
      refine ⟨fun _ => ⟨?_, hex⟩, hex⟩
      rw [htmp]
      exact tmpName_ne_empty w.tmpCounter
  · simp only [ha] at h
    by_cases hd : pyTruthy ds = true
    · simp only [hd, if_true] at h
      by_cases hu : _is_url (ds.getD "") = true
      · simp only [hu, if_true] at h
        rcases hw : _download_docx o (ds.getD "") w with ⟨r2, w2⟩
        rw [hw] at h
        cases r2 with
        | error e => exact absurd h (by simp)
        | ok tmp =>
          simp only [] at h
          have h1 := congrArg Prod.fst h
          have h2 := congrArg Prod.snd h
          simp only [] at h1 h2
          have h3 := Except.ok.inj h1
          have hip : tmp = ip := (congrArg Prod.fst (Option.some.inj h3))
          have hct : ct = true := (congrArg Prod.snd (Option.some.inj h3)).symm
          obtain ⟨htmp, body, hhttp, hw2⟩ := download_ok _ _ _ _ _ hw
          subst hip
          subst h2
          have hex : fsExists w2.fs tmp = true := by
            rw [hw2]
            unfold wWrite fsExists
            dsimp only []
            rw [fsRead_cons, if_pos rfl]
            rfl
          refine ⟨fun _ => ⟨?_, hex⟩, hex⟩
          rw [htmp]
          exact tmpName_ne_empty w.tmpCounter
      · simp only [hu] at h
        by_cases he : fsExists w.fs (abspath cwd (ds.getD "")) = true
        · simp only [he, if_true] at h
          have h1 := congrArg Prod.fst h
          have h2 := congrArg Prod.snd h
          simp only [] at h1 h2
          have h3 := Except.ok.inj h1
          have hip : abspath cwd (ds.getD "") = ip := (congrArg Prod.fst (Option.some.inj h3))
          have hct : ct = false := (congrArg Prod.snd (Option.some.inj h3)).symm
          subst hip
          subst h2
          refine ⟨fun hc => absurd hc (by rw [hct]; simp), he⟩
        · simp only [he] at h
          simp at h
    · simp only [hd] at h
      simp at h
/-- Claim C1: temporary-input cleanup invariant.  Starting from an empty removal
log, whenever the invocation materialised a temporary input (cleanup_tmp
true at exit) the temp file is removed exactly once — the removal log is
exactly that one path — and the file is gone, on every exit path; whenever
the input was a plain local path (cleanup_tmp false) nothing is ever
removed and the input file still exists at exit. -/
theorem C1_cleanup_invariant (env : List (String × String)) (o : Oracles)
    (cwd : String) (a : Args) (w0 : World) (hrem : w0.removals = []) :
    ((give_pdf env o cwd a w0).cleanupTmp = true →
      ∃ p, (give_pdf env o cwd a w0).inputPath = some p ∧
        (give_pdf env o cwd a w0).world.removals = [p] ∧
        fsExists (give_pdf env o cwd a w0).world.fs p = false) ∧
    ((give_pdf env o cwd a w0).cleanupTmp = false →
      (give_pdf env o cwd a w0).world.removals = [] ∧
      ∀ p, (give_pdf env o cwd a w0).inputPath = some p →
        fsExists (give_pdf env o cwd a w0).world.fs p = true) := by
  unfold give_pdf
  dsimp only []
  split
  · rcases hb : _download_docx_by_id env o (a.puch_file_data.getD "") w0 with ⟨rb, w1⟩
    have hfr : StageFrame w0 w1 := by
      have h := frame_download_by_id env o (a.puch_file_data.getD "") w0
      rw [hb] at h
      exact h
    cases rb with
    | error e =>
      dsimp only []
      refine ⟨fun hc => by simp at hc, fun _ => ⟨hfr.1.trans hrem, ?_⟩⟩
      intro p hp
      exact absurd hp (by simp)
    | ok tmp =>
      dsimp only []
      obtain ⟨htmp, hex⟩ := by_id_ok env o _ w0 tmp w1 hb
      have hne : ¬ tmp = "" := by
        rw [htmp]
        exact tmpName_ne_empty w0.tmpCounter
      obtain ⟨hip, hct, hfet, htrue, hfalse⟩ :=
        gar_spec o cwd (cfgFilesDir env) (envGet env "BASE_URL") (cfgIncludeB64 env)
          a.filename a.output_path tmp true w1 (fun _ => ⟨hne, hex⟩)
      obtain ⟨hrm, hgone⟩ := htrue rfl
      refine ⟨fun _ => ⟨tmp, hip, ?_, hgone⟩, fun hc => ?_⟩
      · rw [hrm, hfr.1, hrem]
        rfl
      · rw [hct] at hc
        exact absurd hc (by simp)
  · rcases hr : _resolve_input_path o cwd a.docx_source
        (computeAttachment a.file_base64 a.puch_file_data) w0 with ⟨rr, w1⟩
    have hfr : StageFrame w0 w1 := by
      have h := frame_resolve o cwd a.docx_source
        (computeAttachment a.file_base64 a.puch_file_data) w0
      rw [hr] at h
      exact h
    cases rr with
    | error e =>
      dsimp only []
      unfold crash
      dsimp only []
      refine ⟨fun hc => by simp at hc, fun _ => ⟨hfr.1.trans hrem, ?_⟩⟩
      intro p hp
      exact absurd hp (by simp)
    | ok ropt =>
      cases ropt with
      | none =>
        dsimp only []
        split <;>
          exact ⟨fun hc => by simp at hc,
            fun _ => ⟨hfr.1.trans hrem, fun p hp => absurd hp (by simp)⟩⟩
      | some pr =>
        rcases pr with ⟨ip, ct⟩
        dsimp only []
        obtain ⟨hcttrue, hexists⟩ := resolve_ok_some o cwd _ _ w0 ip ct w1 hr
        obtain ⟨hip, hct, hfet, htrue, hfalse⟩ :=
          gar_spec o cwd (cfgFilesDir env) (envGet env "BASE_URL") (cfgIncludeB64 env)
            a.filename a.output_path ip ct w1 hcttrue
        constructor
        · intro hc
          rw [hct] at hc
          obtain ⟨hrm, hgone⟩ := htrue hc
          refine ⟨ip, hip, ?_, hgone⟩
          rw [hrm, hfr.1, hrem]
          rfl
        · intro hc
          rw [hct] at hc
          obtain ⟨hrm, hkeep⟩ := hfalse hc
          refine ⟨hrm.trans (hfr.1.trans hrem), ?_⟩
          intro p hp
          have hpe : ip = p := Option.some.inj (hip.symm.trans hp)
          subst hpe
          exact hkeep hexists
/-- When the oracle lets some pipeline succeed, the converter returns ok
and writes exactly the successful output to the output path. -/
theorem convert_ok_spec (o : Oracles) (p : String) (w : World) (out : List Nat)
    (h : oracleConvOut o = some out) :
    (_convert_docx_to_pdf o p w).1 = .ok () ∧
    (_convert_docx_to_pdf o p w).2.fs = (p, out) :: w.fs ∧
    (∀ x, x ∈ w.writeLog → x ∈ (_convert_docx_to_pdf o p w).2.writeLog) ∧
    (p, out) ∈ (_convert_docx_to_pdf o p w).2.writeLog ∧
    (_convert_docx_to_pdf o p w).2.removals = w.removals ∧
    (_convert_docx_to_pdf o p w).2.fetched = w.fetched ∧
    (_convert_docx_to_pdf o p w).2.tmpCounter = w.tmpCounter := by
  unfold oracleConvOut fallbackOut at h
  unfold _convert_docx_to_pdf _convert_with_docx2pdf
  rcases h1 : o.pandoc1 with b1 | m1 | m1 <;> rw [h1] at h
  · have hb : b1 = out := Option.some_inj.mp h
    subst hb
    simp [wWrite]
    intro a b hx
    exact Or.inl hx
  · rcases hd : o.pandocDownload with e | u <;> rw [hd] at h
    · exact absurd h (by simp)
    · rcases h2 : o.pandoc2 with b2 | m2 | m2 <;> rw [h2] at h
      · have hb : b2 = out := Option.some_inj.mp h
        subst hb
        simp [h1, hd, h2, wWrite]
        intro a b hx
        exact Or.inl hx
      · rcases ha : o.docx2pdfAvailable <;> rw [ha] at h
        · exact absurd h (by simp)
        · rcases hdx : o.docx2pdf with e2 | b3 <;> rw [hdx] at h
          · exact absurd h (by simp)
          · have hb : b3 = out := Option.some_inj.mp h
            subst hb
            simp [h1, hd, h2, ha, hdx, wWrite]
            intro a b hx
            exact Or.inl hx
      · rcases ha : o.docx2pdfAvailable <;> rw [ha] at h
        · exact absurd h (by simp)
        · rcases hdx : o.docx2pdf with e2 | b3 <;> rw [hdx] at h
          · exact absurd h (by simp)
          · have hb : b3 = out := Option.some_inj.mp h
            subst hb
            simp [h1, hd, h2, ha, hdx, wWrite]
            intro a b hx
            exact Or.inl hx
  · rcases ha : o.docx2pdfAvailable <;> rw [ha] at h
    · exact absurd h (by simp)
    · rcases hdx : o.docx2pdf with e2 | b3 <;> rw [hdx] at h
      · exact absurd h (by simp)
      · have hb : b3 = out := Option.some_inj.mp h
        subst hb
        simp [h1, ha, hdx, wWrite]
        intro a b hx
        exact Or.inl hx
/-- _safe_remove never touches the write log. -/
theorem _safe_remove_writeLog (w : World) (p : Option String) :
    (_safe_remove w p).writeLog = w.writeLog := by
  unfold _safe_remove
  rcases p with _ | q
  · rfl
  · dsimp only []
    split <;> rfl
/-- The delivery gate inside giveAfterResolve: when a pipeline succeeds,
the copy does not fail, BASE_URL is falsy and inline base64 is disabled,
the call returns the configuration failure even though the converted
output was written (it is in the write log). -/
theorem gar_gate (o : Oracles) (cwd fd : String) (bu : Option String)
    (fn op : Option String) (ip : String) (ct : Bool) (w : World) (out : List Nat)
    (hconv : oracleConvOut o = some out) (hcopy : o.copyFail = none)
    (hbu : pyTruthy bu = false) :
    (giveAfterResolve o cwd fd bu false fn op ip ct w).result =
      ⟨false, none, some gateMsg, none⟩ ∧
    (_resolve_output_pdf_path cwd fd fn ip op, out) ∈
      (giveAfterResolve o cwd fd bu false fn op ip ct w).world.writeLog := by
  unfold giveAfterResolve
  dsimp only []
  generalize hOP : _resolve_output_pdf_path cwd fd fn ip op = OP
  obtain ⟨hcok, hfs, hmono, hmem, hrm, hfet, htc⟩ := convert_ok_spec o OP w out hconv
  rcases hc : _convert_docx_to_pdf o OP w with ⟨rc, w1⟩
  rw [hc] at hcok hfs hmono hmem
  simp only [] at hcok hfs hmono hmem
  cases rc with
  | error e => exact absurd hcok (by simp)
  | ok u =>
    unfold _publish_and_url
    simp only [hbu, hcopy, Bool.false_eq_true, if_false]
    by_cases hpe : abspath cwd OP =
        abspath cwd (pjoin fd (if basename OP = "" then "output.pdf" else basename OP))
    · rw [if_pos hpe]
      have hgate : (((none : Option String).isNone && !false)) = true := rfl
      dsimp only []
      rw [if_pos hgate]
      constructor
      · rfl
      · rcases ct with _ | _
        · rw [if_neg Bool.false_ne_true]
          exact hmem
        · rw [if_pos rfl, _safe_remove_writeLog]
          exact hmem
    · rw [if_neg hpe]
      have hread : fsRead w1.fs OP = some out := by
        rw [hfs, fsRead_cons, if_pos rfl]
      rw [hread]
      have hgate : (((none : Option String).isNone && !false)) = true := rfl
      dsimp only []
      rw [if_pos hgate]
      constructor
      · rfl
      · rcases ct with _ | _
        · rw [if_neg Bool.false_ne_true]
          unfold wWrite
          dsimp only []
          exact List.mem_append_left _ hmem
        · rw [if_pos rfl, _safe_remove_writeLog]
          unfold wWrite
          dsimp only []
          exact List.mem_append_left _ hmem
/-- Claim C3: delivery-mechanism gate.  For every invocation that resolves an
input (ghost input path present), where some conversion pipeline succeeds
and publishing does not fail, but BASE_URL is falsy and INCLUDE_BASE64 is
disabled, the result is the configuration failure with the gate message,
although the converted output was written to disk (it is in the write
log at the resolved output path). -/
theorem C3_delivery_gate (env : List (String × String)) (o : Oracles)
    (cwd : String) (a : Args) (w0 : World) (out : List Nat) (ip : String)
    (hbase : pyTruthy (envGet env "BASE_URL") = false)
    (hinc : cfgIncludeB64 env = false)
    (hconv : oracleConvOut o = some out)
    (hcopy : o.copyFail = none)
    (hip : (give_pdf env o cwd a w0).inputPath = some ip) :
    (give_pdf env o cwd a w0).result = ⟨false, none, some gateMsg, none⟩ ∧
    (_resolve_output_pdf_path cwd (cfgFilesDir env) a.filename ip a.output_path,
      out) ∈ (give_pdf env o cwd a w0).world.writeLog := by
  unfold give_pdf at hip ⊢
  dsimp only [] at hip ⊢
  by_cases hguard : (pyTruthy a.puch_file_data &&
      (computeAttachment a.file_base64 a.puch_file_data).isNone) = true
  · rw [if_pos hguard] at hip ⊢
    rcases hb : _download_docx_by_id env o (a.puch_file_data.getD "") w0 with ⟨rb, w1⟩
    rw [hb] at hip
    cases rb with
    | error e => exact absurd hip (by simp)
    | ok tmp =>
      dsimp only [] at hip ⊢
      obtain ⟨htmp, hex⟩ := by_id_ok env o _ w0 tmp w1 hb
      have hne : ¬ tmp = "" := by
        rw [htmp]
        exact tmpName_ne_empty w0.tmpCounter
      obtain ⟨hgip, -, -, -, -⟩ :=
        gar_spec o cwd (cfgFilesDir env) (envGet env "BASE_URL") (cfgIncludeB64 env)
          a.filename a.output_path tmp true w1 (fun _ => ⟨hne, hex⟩)
      have hteq : tmp = ip := Option.some.inj (hgip.symm.trans hip)
      subst hteq
      rw [hinc]
      exact gar_gate o cwd (cfgFilesDir env) (envGet env "BASE_URL") a.filename
        a.output_path tmp true w1 out hconv hcopy hbase
  · rw [if_neg hguard] at hip ⊢
    rcases hr : _resolve_input_path o cwd a.docx_source
        (computeAttachment a.file_base64 a.puch_file_data) w0 with ⟨rr, w1⟩
    rw [hr] at hip
    cases rr with
    | error e =>
      exact absurd hip (by simp [crash])
    | ok ropt =>
      cases ropt with
      | none =>
        dsimp only [] at hip ⊢
        by_cases hds : pyTruthy a.docx_source = true
        · rw [if_pos hds] at hip
          exact absurd hip (by simp)
        · rw [if_neg hds] at hip
          exact absurd hip (by simp)
      | some pr =>
        rcases pr with ⟨ip2, ct⟩
        dsimp only [] at hip ⊢
        obtain ⟨hcttrue, hexists⟩ := resolve_ok_some o cwd _ _ w0 ip2 ct w1 hr
        obtain ⟨hgip, -, -, -, -⟩ :=
          gar_spec o cwd (cfgFilesDir env) (envGet env "BASE_URL") (cfgIncludeB64 env)
            a.filename a.output_path ip2 ct w1 hcttrue
        have hteq : ip2 = ip := Option.some.inj (hgip.symm.trans hip)
        subst hteq
        rw [hinc]
        exact gar_gate o cwd (cfgFilesDir env) (envGet env "BASE_URL") a.filename
          a.output_path ip2 ct w1 out hconv hcopy hbase
/-- The write log only grows during the docx2pdf fallback. -/
theorem wlog_docx2pdf (o : Oracles) (p : String) (w : World) (x : String × List Nat)
    (hx : x ∈ w.writeLog) : x ∈ (_convert_with_docx2pdf o p w).2.writeLog := by
  unfold _convert_with_docx2pdf
  dsimp only []
  split
  · exact hx
  · split
    · unfold wWrite
      dsimp only []
      exact List.mem_append_left _ hx
    · exact hx
/-- The write log only grows during conversion. -/
theorem wlog_convert (o : Oracles) (p : String) (w : World) (x : String × List Nat)
    (hx : x ∈ w.writeLog) : x ∈ (_convert_docx_to_pdf o p w).2.writeLog := by
  unfold _convert_docx_to_pdf
  dsimp only []
  split
  · unfold wWrite
    dsimp only []
    exact List.mem_append_left _ hx
  · split
    · exact hx
    · split
      · unfold wWrite
        dsimp only []
        exact List.mem_append_left _ hx
      · exact wlog_docx2pdf o p _ x hx
      · exact wlog_docx2pdf o p _ x hx
  · exact wlog_docx2pdf o p _ x hx
/-- The write log only grows during publishing. -/
theorem wlog_publish (o : Oracles) (cwd fd op : String) (bu : Option String)
    (w : World) (x : String × List Nat) (hx : x ∈ w.writeLog) :
    x ∈ (_publish_and_url o cwd fd op bu w).2.writeLog := by
  unfold _publish_and_url
  dsimp only []
  repeat' first
    | exact hx
    | (unfold wWrite; dsimp only []; exact List.mem_append_left _ hx)
    | split
/-- The write log only grows through the resolved tail of give_pdf. -/
theorem gar_wlog (o : Oracles) (cwd fd : String) (bu : Option String)
    (ib : Bool) (fn op : Option String) (ip : String) (ct : Bool) (w : World)
    (x : String × List Nat) (hx : x ∈ w.writeLog) :
    x ∈ (giveAfterResolve o cwd fd bu ib fn op ip ct w).world.writeLog := by
  have hexit : ∀ (w2 : World), x ∈ w2.writeLog →
      x ∈ (if ct = true then _safe_remove w2 (some ip) else w2).writeLog := by
    intro w2 h2
    rcases ct with _ | _
    · rw [if_neg Bool.false_ne_true]
      exact h2
    · rw [if_pos rfl, _safe_remove_writeLog]
      exact h2
  unfold giveAfterResolve crash
  dsimp only []
  generalize _resolve_output_pdf_path cwd fd fn ip op = OP
  rcases hc : _convert_docx_to_pdf o OP w with ⟨rc, w1⟩
  have hm1 : x ∈ w1.writeLog := by
    have h := wlog_convert o OP w x hx
    rw [hc] at h
    exact h
  cases rc with
  | error e => exact hexit w1 hm1
  | ok u =>
    dsimp only []
    rcases hp : _publish_and_url o cwd fd OP bu w1 with ⟨rp, w2⟩
    have hm2 : x ∈ w2.writeLog := by
      have h := wlog_publish o cwd fd OP bu w1 x hm1
      rw [hp] at h
      exact h
    cases rp with
    | error e => exact hexit w2 hm2
    | ok pu =>
      dsimp only []
      rcases pu with ⟨public, fileurl⟩
      dsimp only []
      split
      · exact hexit w2 hm2
      · split
        · exact hexit w2 hm2
        · exact hexit w2 hm2
/-- With a truthy attachment, input resolution is exactly the temp-file
write and never looks at docx_source. -/
theorem resolve_att (o : Oracles) (cwd : String) (ds att : Option String)
    (w : World) (ha : pyTruthy att = true) :
    _resolve_input_path o cwd ds att w =
      (match _write_temp_docx_from_base64 (att.getD "") w with
       | (.error e, w1) => (.error e, w1)
       | (.ok tmp, w1) => (.ok (some (tmp, true)), w1)) := by
  unfold _resolve_input_path
  simp only [ha, if_true]
/-- _write_temp_docx_from_base64 performs no fetch. -/
theorem fetched_write_temp (b64 : String) (w : World) :
    (_write_temp_docx_from_base64 b64 w).2.fetched = w.fetched := by
  unfold _write_temp_docx_from_base64
  dsimp only []
  split <;> rfl
/-- Claim C5: raw-payload precedence.  With both file_base64 and docx_source
set, the run is identical to the run with docx_source removed (the
resolver never touches docx_source), no HTTP fetch ever happens, and when
the payload decodes the resolver writes the decoded bytes into a fresh
temporary file with the temporary flag set. -/
theorem C5_payload_precedence (env : List (String × String)) (o : Oracles)
    (cwd : String) (a : Args) (w0 : World) (fb ds : String)
    (hfb : a.file_base64 = some fb) (hne : ¬ fb = "")
    (hds : a.docx_source = some ds) :
    give_pdf env o cwd a w0 = give_pdf env o cwd { a with docx_source := none } w0 ∧
    (give_pdf env o cwd a w0).world.fetched = w0.fetched ∧
    (∀ bs, b64decodeLenient fb = some bs →
      (give_pdf env o cwd a w0).cleanupTmp = true ∧
      (give_pdf env o cwd a w0).inputPath = some (tmpName w0.tmpCounter) ∧
      (tmpName w0.tmpCounter, bs) ∈ (give_pdf env o cwd a w0).world.writeLog) := by
  have htr : pyTruthy (some fb) = true := by
    unfold pyTruthy
    simp [hne]
  have hatt : computeAttachment a.file_base64 a.puch_file_data = some fb := by
    unfold computeAttachment
    rw [hfb]
    rw [if_pos htr]
  refine ⟨?_, ?_, ?_⟩
  · unfold give_pdf
    dsimp only []
    rw [hatt]
    simp only [Option.isNone_some, Bool.and_false]
    rw [if_neg Bool.false_ne_true, if_neg Bool.false_ne_true]
    rw [resolve_att o cwd a.docx_source (some fb) w0 htr,
      resolve_att o cwd none (some fb) w0 htr]
    simp only [Option.getD_some]
    rcases hw : _write_temp_docx_from_base64 fb w0 with ⟨r2, w1⟩
    cases r2 <;> rfl
  · unfold give_pdf
    dsimp only []
    rw [hatt]
    simp only [Option.isNone_some, Bool.and_false]
    rw [if_neg Bool.false_ne_true]
    rw [resolve_att o cwd a.docx_source (some fb) w0 htr]
    simp only [Option.getD_some]
    rcases hw : _write_temp_docx_from_base64 fb w0 with ⟨r2, w1⟩
    have hfet1 : w1.fetched = w0.fetched := by
      have h := fetched_write_temp fb w0
      rw [hw] at h
      exact h
    cases r2 with
    | error e =>
      dsimp only []
      unfold crash
      dsimp only []
      rw [if_neg Bool.false_ne_true]
      exact hfet1
    | ok tmp =>
      dsimp only []
      obtain ⟨htmp, bs, hlen, hw1⟩ := write_temp_ok fb w0 tmp w1 hw
      have hex : fsExists w1.fs tmp = true := by
        rw [hw1]
        unfold wWrite fsExists
        dsimp only []
        rw [fsRead_cons, if_pos rfl]
        rfl
      have hnet : ¬ tmp = "" := by
        rw [htmp]
        exact tmpName_ne_empty w0.tmpCounter
      obtain ⟨-, -, hfet, -, -⟩ :=
        gar_spec o cwd (cfgFilesDir env) (envGet env "BASE_URL") (cfgIncludeB64 env)
          a.filename a.output_path tmp true w1 (fun _ => ⟨hnet, hex⟩)
      exact hfet.trans hfet1
  · intro bs hbs
    unfold give_pdf
    dsimp only []
    rw [hatt]
    simp only [Option.isNone_some, Bool.and_false]
    rw [if_neg Bool.false_ne_true]
    rw [resolve_att o cwd a.docx_source (some fb) w0 htr]
    simp only [Option.getD_some]
    unfold _write_temp_docx_from_base64
    dsimp only []
    rw [hbs]
    dsimp only []
    have hex : fsExists (wWrite (wWrite { w0 with tmpCounter := w0.tmpCounter + 1 }
        (tmpName w0.tmpCounter) []) (tmpName w0.tmpCounter) bs).fs
        (tmpName w0.tmpCounter) = true := by
      unfold wWrite fsExists
      dsimp only []
      rw [fsRead_cons, if_pos rfl]
      rfl
    obtain ⟨hip, hct, -, -, -⟩ :=
      gar_spec o cwd (cfgFilesDir env) (envGet env "BASE_URL") (cfgIncludeB64 env)
        a.filename a.output_path (tmpName w0.tmpCounter) true _
        (fun _ => ⟨tmpName_ne_empty w0.tmpCounter, hex⟩)
    refine ⟨hct, hip, ?_⟩
    apply gar_wlog
    unfold wWrite
    dsimp only []
    exact List.mem_append_right _ (by simp)
/-- Full evaluation of a successful id download. -/
theorem by_id_ok_eval (env : List (String × String)) (o : Oracles) (i : String)
    (w : World) (body : List Nat)
    (ht : pyTruthy (envGet env "PUCH_DOWNLOAD_URL_TEMPLATE") = true)
    (hh : o.http (idUrl env i) (idTok env) = .ok body) :
    _download_docx_by_id env o i w = (.ok (tmpName w.tmpCounter),
      wWrite { w with
        fetched := w.fetched ++ [(idUrl env i, idTok env)]
        tmpCounter := w.tmpCounter + 1 } (tmpName w.tmpCounter) body) := by
  unfold _download_docx_by_id
  unfold idUrl idTok at hh
  simp only [ht, Bool.not_true, Bool.false_eq_true, if_false, hh]
  rfl
/-- The shared by-id branch of give_pdf: with puch_file_data present, not
base64, and file_base64 falsy, a missing template returns the
configuration failure untouched; a configured template triggers exactly
one substituted authenticated GET, and on HTTP success the body lands in
a fresh temporary input with cleanup_tmp set. -/
theorem id_branch_spec (env : List (String × String)) (o : Oracles)
    (cwd : String) (a : Args) (w0 : World) (s : String)
    (hpuch : a.puch_file_data = some s) (hs : ¬ s = "")
    (hnb : _looks_like_base64 s = false)
    (hfb : pyTruthy a.file_base64 = false) :
    (pyTruthy (envGet env "PUCH_DOWNLOAD_URL_TEMPLATE") = false →
      give_pdf env o cwd a w0 =
        ⟨⟨false, none, some idTemplateMsg, none⟩, w0, none, false⟩) ∧
    (pyTruthy (envGet env "PUCH_DOWNLOAD_URL_TEMPLATE") = true →
      (give_pdf env o cwd a w0).world.fetched =
        w0.fetched ++ [(idUrl env s, idTok env)] ∧
      (∀ body, o.http (idUrl env s) (idTok env) = .ok body →
        (give_pdf env o cwd a w0).cleanupTmp = true ∧
        (give_pdf env o cwd a w0).inputPath = some (tmpName w0.tmpCounter))) := by
  have htr : pyTruthy (some s) = true := by
    unfold pyTruthy
    simp [hs]
  have hattn : computeAttachment a.file_base64 a.puch_file_data = none := by
    unfold computeAttachment
    rw [hfb, hpuch]
    simp only [Bool.false_eq_true, if_false, Option.getD_some, hnb, Bool.and_false]
  unfold give_pdf
  dsimp only []
  rw [hattn, hpuch]
  simp only [Option.isNone_none, Bool.and_true, Option.getD_some]
  rw [if_pos htr]
  constructor
  · intro ht
    rw [by_id_no_template env o s w0 ht]
  · intro ht
    constructor
    · rcases hb : _download_docx_by_id env o s w0 with ⟨rb, w1⟩
      have hfet : w1.fetched = w0.fetched ++ [(idUrl env s, idTok env)] := by
        have h := by_id_fetch env o s w0 ht
        rw [hb] at h
        exact h
      cases rb with
      | error e => exact hfet
      | ok tmp =>
        dsimp only []
        obtain ⟨htmp, hex⟩ := by_id_ok env o s w0 tmp w1 hb
        have hnet : ¬ tmp = "" := by
          rw [htmp]
          exact tmpName_ne_empty w0.tmpCounter
        obtain ⟨-, -, hfet2, -, -⟩ :=
          gar_spec o cwd (cfgFilesDir env) (envGet env "BASE_URL") (cfgIncludeB64 env)
            a.filename a.output_path tmp true w1 (fun _ => ⟨hnet, hex⟩)
        exact hfet2.trans hfet
    · intro body hh
      rw [by_id_ok_eval env o s w0 body ht hh]
      dsimp only []
      have hex : fsExists (wWrite { w0 with
          fetched := w0.fetched ++ [(idUrl env s, idTok env)]
          tmpCounter := w0.tmpCounter + 1 } (tmpName w0.tmpCounter) body).fs
          (tmpName w0.tmpCounter) = true := by
        unfold wWrite fsExists
        dsimp only []
        rw [fsRead_cons, if_pos rfl]
        rfl
      obtain ⟨hip, hct, -, -, -⟩ :=
        gar_spec o cwd (cfgFilesDir env) (envGet env "BASE_URL") (cfgIncludeB64 env)
          a.filename a.output_path (tmpName w0.tmpCounter) true _
          (fun _ => ⟨tmpName_ne_empty w0.tmpCounter, hex⟩)
      exact ⟨hct, hip⟩
/-- Claim C7: remote-ID configuration precondition, an instance of the by-id
branch behaviour: no template means an immediate configuration failure
with no HTTP request and an unchanged world; a configured template means
one substituted authenticated GET whose successful body becomes a fresh
temporary input with the temporary flag set. -/
theorem C7_remote_id_configuration (env : List (String × String)) (o : Oracles)
    (cwd : String) (a : Args) (w0 : World) (s : String)
    (hpuch : a.puch_file_data = some s) (hs : ¬ s = "")
    (hnb : _looks_like_base64 s = false)
    (hfb : pyTruthy a.file_base64 = false) :
    (pyTruthy (envGet env "PUCH_DOWNLOAD_URL_TEMPLATE") = false →
      give_pdf env o cwd a w0 =
        ⟨⟨false, none, some idTemplateMsg, none⟩, w0, none, false⟩) ∧
    (pyTruthy (envGet env "PUCH_DOWNLOAD_URL_TEMPLATE") = true →
      (give_pdf env o cwd a w0).world.fetched =
        w0.fetched ++ [(idUrl env s, idTok env)] ∧
      (∀ body, o.http (idUrl env s) (idTok env) = .ok body →
        (give_pdf env o cwd a w0).cleanupTmp = true ∧
        (give_pdf env o cwd a w0).inputPath = some (tmpName w0.tmpCounter))) :=
  id_branch_spec env o cwd a w0 s hpuch hs hnb hfb
/-- Claim C4: base64-decodability is the sole discriminator for puch_file_data.
A decodable value (even an adversarial id-shaped one) is treated as a raw
payload: no HTTP fetch at all, a fresh temporary input holding exactly the
decoded bytes.  A non-decodable value is treated as a remote id: without a
template the id configuration failure is returned with no fetch, with a
template the substituted URL is fetched. -/
theorem C4_base64_discriminator (env : List (String × String)) (o : Oracles)
    (cwd : String) (a : Args) (w0 : World) (s : String)
    (hpuch : a.puch_file_data = some s) (hs : ¬ s = "")
    (hfb : a.file_base64 = none) :
    (_looks_like_base64 s = true →
      (give_pdf env o cwd a w0).world.fetched = w0.fetched ∧
      (give_pdf env o cwd a w0).cleanupTmp = true ∧
      (give_pdf env o cwd a w0).inputPath = some (tmpName w0.tmpCounter) ∧
      (∀ bs, b64decodeQuads s.data = some bs →
        (tmpName w0.tmpCounter, bs) ∈ (give_pdf env o cwd a w0).world.writeLog)) ∧
    (_looks_like_base64 s = false →
      (pyTruthy (envGet env "PUCH_DOWNLOAD_URL_TEMPLATE") = false →
        (give_pdf env o cwd a w0).result.error = some idTemplateMsg ∧
        (give_pdf env o cwd a w0).world.fetched = w0.fetched) ∧
      (pyTruthy (envGet env "PUCH_DOWNLOAD_URL_TEMPLATE") = true →
        (give_pdf env o cwd a w0).world.fetched =
          w0.fetched ++ [(idUrl env s, idTok env)])) := by
  have htr : pyTruthy (some s) = true := by
    unfold pyTruthy
    simp [hs]
  constructor
  · intro hlooks
    obtain ⟨bs0, hbs0⟩ := Option.isSome_iff_exists.mp hlooks
    have hlen0 : b64decodeLenient s = some bs0 := b64decodeLenient_of_quads s bs0 hbs0
    have hatt : computeAttachment a.file_base64 a.puch_file_data = some s := by
      unfold computeAttachment
      rw [hfb, hpuch]
      simp only [pyTruthy_none, Bool.false_eq_true, if_false, Option.getD_some, hlooks,
        Bool.and_true]
      rw [if_pos htr]
    have hmain : give_pdf env o cwd a w0 =
        giveAfterResolve o cwd (cfgFilesDir env) (envGet env "BASE_URL")
          (cfgIncludeB64 env) a.filename a.output_path (tmpName w0.tmpCounter) true
          (wWrite (wWrite { w0 with tmpCounter := w0.tmpCounter + 1 }
            (tmpName w0.tmpCounter) []) (tmpName w0.tmpCounter) bs0) := by
      unfold give_pdf
      dsimp only []
      rw [hatt, hpuch]
      simp only [Option.isNone_some, Bool.and_false]
      rw [if_neg Bool.false_ne_true]
      rw [resolve_att o cwd a.docx_source (some s) w0 htr]
      simp only [Option.getD_some]
      unfold _write_temp_docx_from_base64
      dsimp only []
      rw [hlen0]
    rw [hmain]
    have hex : fsExists (wWrite (wWrite { w0 with tmpCounter := w0.tmpCounter + 1 }
        (tmpName w0.tmpCounter) []) (tmpName w0.tmpCounter) bs0).fs
        (tmpName w0.tmpCounter) = true := by
      unfold wWrite fsExists
      dsimp only []
      rw [fsRead_cons, if_pos rfl]
      rfl
    obtain ⟨hip, hct, hfet, -, -⟩ :=
      gar_spec o cwd (cfgFilesDir env) (envGet env "BASE_URL") (cfgIncludeB64 env)
        a.filename a.output_path (tmpName w0.tmpCounter) true _
        (fun _ => ⟨tmpName_ne_empty w0.tmpCounter, hex⟩)
    refine ⟨hfet.trans rfl, hct, hip, ?_⟩
    intro bs hbs
    have hbseq : bs = bs0 := Option.some_inj.mp (hbs.symm.trans hbs0)
    subst hbseq
    apply gar_wlog
    unfold wWrite
    dsimp only []
    exact List.mem_append_right _ (by simp)
  · intro hnb
    have hfbf : pyTruthy a.file_base64 = false := by
      rw [hfb]
      rfl
    obtain ⟨hnone, hsome⟩ := id_branch_spec env o cwd a w0 s hpuch hs hnb hfbf
    constructor
    · intro ht
      rw [hnone ht]
      exact ⟨rfl, rfl⟩
    · intro ht
      exact (hsome ht).1
/-- Claim C2 counterexample: in the exact spec scenario (URL source, BASE_URL
set, inline base64 off, download and conversion succeed) the returned URL
is built from the temporary download file name, not from a.docx. -/
theorem C2_counterexample :
    (give_pdf envHost (oracleC2 [1, 2] [9, 9]) "/srv" argsUrl emptyWorld).result.success
      = true ∧
    (give_pdf envHost (oracleC2 [1, 2] [9, 9]) "/srv" argsUrl emptyWorld).result.url =
      some "https://host/files/tmp0.pdf" ∧
    ¬ (give_pdf envHost (oracleC2 [1, 2] [9, 9]) "/srv" argsUrl emptyWorld).result.url =
      some "https://host/files/a.pdf" := by
  refine ⟨rfl, rfl, by decide⟩
/-- Claim C2 amended: the URL scenario succeeds, but the public URL is derived
from the basename of the temporary download file (tmp0.docx in the model),
not from the source document name; the temporary download file is removed. -/
theorem C2_url_scenario (body out : List Nat) :
    (give_pdf envHost (oracleC2 body out) "/srv" argsUrl emptyWorld).result =
      ⟨true, some "https://host/files/tmp0.pdf", none, none⟩ ∧
    (give_pdf envHost (oracleC2 body out) "/srv" argsUrl emptyWorld).world.removals =
      ["/tmp/tmp0.docx"] ∧
    fsExists (give_pdf envHost (oracleC2 body out) "/srv" argsUrl emptyWorld).world.fs
      "/tmp/tmp0.docx" = false ∧
    (give_pdf envHost (oracleC2 body out) "/srv" argsUrl emptyWorld).world.fetched =
      [("https://example.com/a.docx", none)] ∧
    (give_pdf envHost (oracleC2 body out) "/srv" argsUrl emptyWorld).cleanupTmp = true := by
  refine ⟨rfl, rfl, rfl, rfl, rfl⟩
/-- Instance of the amended C2 at concrete bytes. -/
theorem C2_url_scenario_witness :
    (give_pdf envHost (oracleC2 [1, 2] [9, 9]) "/srv" argsUrl emptyWorld).result =
      ⟨true, some "https://host/files/tmp0.pdf", none, none⟩ :=
  (C2_url_scenario [1, 2] [9, 9]).1
/-- Witness for C1 on a run that materialises a temporary download. -/
theorem C1_cleanup_invariant_witness :
    (give_pdf envHost (oracleC2 [1] [2]) "/srv" argsUrl emptyWorld).world.removals =
      ["/tmp/tmp0.docx"] ∧
    fsExists (give_pdf envHost (oracleC2 [1] [2]) "/srv" argsUrl emptyWorld).world.fs
      "/tmp/tmp0.docx" = false := by
  have h := C1_cleanup_invariant envHost (oracleC2 [1] [2]) "/srv" argsUrl emptyWorld rfl
  obtain ⟨p, hip, hrm, hgone⟩ := h.1 (by rfl)
  have hp : p = "/tmp/tmp0.docx" := by
    have h2 : some p = some "/tmp/tmp0.docx" := hip.symm.trans (by rfl)
    exact Option.some_inj.mp h2
  subst hp
  exact ⟨hrm, hgone⟩
/-- Witness for C3: same successful run but with no BASE_URL configured. -/
theorem C3_delivery_gate_witness :
    (give_pdf [] (oracleC2 [1] [2]) "/srv" argsUrl emptyWorld).result =
      ⟨false, none, some gateMsg, none⟩ ∧
    ("/srv/files/tmp0.pdf", [2]) ∈
      (give_pdf [] (oracleC2 [1] [2]) "/srv" argsUrl emptyWorld).world.writeLog := by
  have h := C3_delivery_gate [] (oracleC2 [1] [2]) "/srv" argsUrl emptyWorld [2]
    "/tmp/tmp0.docx" rfl rfl rfl rfl rfl
  exact ⟨h.1, h.2⟩
/-- Witness for C4 at the adversarial id-shaped payload: it decodes, so it
is written as a payload and nothing is fetched. -/
theorem C4_base64_discriminator_witness :
    _looks_like_base64 "ZmlsZTEyMw==" = true ∧
    (give_pdf [] (oracleC2 [1] [2]) "/srv" argsPuch emptyWorld).world.fetched = [] ∧
    (give_pdf [] (oracleC2 [1] [2]) "/srv" argsPuch emptyWorld).cleanupTmp = true ∧
    (give_pdf [] (oracleC2 [1] [2]) "/srv" argsPuch emptyWorld).inputPath =
      some (tmpName 0) := by
  have h := C4_base64_discriminator [] (oracleC2 [1] [2]) "/srv" argsPuch emptyWorld
    "ZmlsZTEyMw==" rfl (by decide) rfl
  obtain ⟨hfet, hct, hip, -⟩ := h.1 (by decide)
  exact ⟨by decide, hfet, hct, hip⟩
/-- Witness for C5: with both a payload and a path set, the run ignores
docx_source, fetches nothing, and writes the decoded payload. -/
theorem C5_payload_precedence_witness :
    give_pdf [] (oracleC2 [1] [2]) "/srv" argsBoth emptyWorld =
      give_pdf [] (oracleC2 [1] [2]) "/srv" { argsBoth with docx_source := none }
        emptyWorld ∧
    (give_pdf [] (oracleC2 [1] [2]) "/srv" argsBoth emptyWorld).world.fetched = [] ∧
    (give_pdf [] (oracleC2 [1] [2]) "/srv" argsBoth emptyWorld).cleanupTmp = true ∧
    (give_pdf [] (oracleC2 [1] [2]) "/srv" argsBoth emptyWorld).inputPath =
      some (tmpName 0) := by
  have h := C5_payload_precedence [] (oracleC2 [1] [2]) "/srv" argsBoth emptyWorld
    "aGk=" "/docs/a.docx" rfl (by decide) rfl
  obtain ⟨heq, hfet, hdec⟩ := h
  obtain ⟨hct, hip, -⟩ := hdec [104, 105] (by decide)
  exact ⟨heq, hfet, hct, hip⟩
/-- Witness for C7: a non-base64 id with no template configured fails with
the configuration message and touches nothing. -/
theorem C7_remote_id_configuration_witness :
    give_pdf [] (oracleC2 [1] [2]) "/srv" argsPuchId emptyWorld =
      ⟨⟨false, none, some idTemplateMsg, none⟩, emptyWorld, none, false⟩ := by
  have h := C7_remote_id_configuration [] (oracleC2 [1] [2]) "/srv" argsPuchId
    emptyWorld "file-123" rfl (by decide) (by decide) rfl
  exact h.1 rfl
